import Mathlib

/-!
# go-mongo-handler: the document-store access layer

A shallow embedding of `mongo_handler.go` and `helper.go` (package `db`).

* Go `string`, `[]byte` and `bson.ObjectId` (declared `type ObjectId string`) are byte
  sequences; they are `List Byte` with `Byte = Fin 256`.
* A Go `interface{}` value is a `Value`, tagged with its dynamic type.
* A Go `map[string]interface{}` is a reference to a mutable table.  Tables live in a
  `Heap`; a `MapRef` is `none` for the nil map and `some a` for the table at address `a`.
* The mgo driver and the server behind it are a `Backend` of answers; every request the
  handler sends is appended to the `ops` log of the `World`.
* A Go run-time panic is the `none` of `Outcome.ret`.
-/

namespace MongoHandler

/-! ## Bytes and strings -/

abbrev Byte := Fin 256

/-- A Go `string` (also the contents of a `[]byte`): a sequence of bytes. -/
abbrev GoString := List Byte

/-- The bytes of an ASCII literal, to write Go string literals such as `"_id"`. -/
def ascii (s : String) : GoString := s.toList.map (fun c => Fin.ofNat c.toNat)

/-! ## `encoding/hex` and `fmt` verb `%x`, as used by package `bson` -/

/-- The table `hextable = "0123456789abcdef"` of `encoding/hex`. -/
def hextable : List Byte := [48, 49, 50, 51, 52, 53, 54, 55, 56, 57, 97, 98, 99, 100, 101, 102]

/-- Go `hex.EncodeToString`, which is also `fmt.Sprintf("%x", s)` on a string: each byte
`v` gives `hextable[v>>4]`, `hextable[v&0x0f]`. -/
def hexEncode : List Byte → List Byte
  | [] => []
  | v :: rest => hextable.getD (v.val / 16) 0 :: hextable.getD (v.val % 16) 0 :: hexEncode rest

/-- Go `hex.fromHexChar`: the value of one hexadecimal digit, `none` when the byte is not
a digit (`ok == false`). -/
def fromHexChar (c : Byte) : Option Nat :=
  if 48 ≤ c.val ∧ c.val ≤ 57 then some (c.val - 48)
  else if 97 ≤ c.val ∧ c.val ≤ 102 then some (c.val - 97 + 10)
  else if 65 ≤ c.val ∧ c.val ≤ 70 then some (c.val - 65 + 10)
  else none

/-- Go `hex.Decode` / `hex.DecodeString`: pairs of digits give bytes `(a << 4) | b`;
`none` stands for the error result (`InvalidByteError` or, on odd length, `ErrLength`). -/
def hexDecode : List Byte → Option (List Byte)
  | [] => some []
  | [_] => none
  | c1 :: c2 :: rest =>
    match fromHexChar c1, fromHexChar c2 with
    | some a, some b =>
      match hexDecode rest with
      | some out => some (Fin.ofNat (a * 16 + b) :: out)
      | none => none
    | _, _ => none

/-! ## Package `bson`: `ObjectId` -/

/-- The type `bson.ObjectId`: `type ObjectId string`.  A well-formed identifier has
exactly 12 bytes, but the type itself holds any byte string. -/
abbrev ObjectId := List Byte

/-- Go `bson.IsObjectIdHex`: `len(s) == 24` and `hex.DecodeString(s)` gives no error. -/
def IsObjectIdHex (s : GoString) : Bool :=
  if s.length ≠ 24 then false else (hexDecode s).isSome

/-- Go `bson.ObjectIdHex`: the decoded bytes; panics (`none`) unless the input decodes
to 12 bytes. -/
def ObjectIdHex (s : GoString) : Option ObjectId :=
  match hexDecode s with
  | some d => if d.length ≠ 12 then none else some d
  | none => none

/-- Go `ObjectId.MarshalText`: `[]byte(fmt.Sprintf("%x", string(id)))`; its error result
is always nil. -/
def MarshalText (id : ObjectId) : List Byte := hexEncode id

/-- Go errors met by the handler. -/
inductive GoError where
  /-- A value of `errors.New(msg)`. -/
  | errorString (msg : String)
  /-- A value of the declared type `InvalidObjectIDError`. -/
  | invalidObjectID (message : String)
  /-- An error reported by the mgo driver or the server. -/
  | driver (code : Nat)
  deriving DecidableEq, Repr

/-- Go `(*ObjectId).UnmarshalText`: the receiver after the call and the error.  Empty
input and a single space set the receiver to `""` without error; any other input must be
24 hexadecimal digits, otherwise the receiver is left as it was. -/
def UnmarshalText (id : ObjectId) (data : List Byte) : ObjectId × Option GoError :=
  if (data.length = 1 ∧ data.head? = some 32) ∨ data.length = 0 then ([], none)
  else if data.length ≠ 24 then (id, some (.errorString "invalid ObjectId"))
  else
    match hexDecode data with
    | some buf => (buf, none)
    | none => (id, some (.errorString "invalid ObjectId"))

/-! ## Dynamic values -/

/-- A Go `interface{}` value with its dynamic type. -/
inductive Value where
  /-- The nil interface. -/
  | nil
  /-- Dynamic type `bson.ObjectId`. -/
  | objectId (id : ObjectId)
  /-- Dynamic type `string`. -/
  | str (s : GoString)
  /-- Dynamic type `[]byte`. -/
  | bytes (b : List Byte)
  /-- Dynamic type `int`. -/
  | int (n : Int)
  /-- Dynamic type `bool`. -/
  | bool (b : Bool)
  /-- Any other dynamic type (time, float, nested document, ...), kept opaque. -/
  | other (tag : Nat)
  deriving DecidableEq, Repr

/-- The function `createObjectID`: the identifier and the error it returns. -/
def createObjectID (id : Value) : ObjectId × Option GoError :=
  match id with
  | .objectId oid => (oid, none)
  | .str stringID =>
    if !IsObjectIdHex stringID then
      ([], some (.errorString "Wrong id format"))
    else
      -- bson.ObjectIdHex cannot panic here: IsObjectIdHex holds
      ((ObjectIdHex stringID).getD [], none)
  | .bytes bytesID =>
    -- create a (may be invalid) object type of ObjectId
    let result : ObjectId := bytesID
    let (result, err) := UnmarshalText result bytesID
    match err with
    | some _ => ([], some (.errorString "Wrong id format"))
    | none => (result, none)
  | _ => ([], some (.errorString "Unsuported input: only support string and []byte"))

/-! ## Maps and the heap -/

/-- The entries of a Go `map[string]interface{}`, read by first match on the key. -/
structure GoMap where
  entries : List (GoString × Value)
  deriving DecidableEq, Repr

/-- The comma-ok read `v, ok := m[k]`: `none` when the key is absent. -/
def GoMap.get (m : GoMap) (k : GoString) : Option Value := m.entries.lookup k

/-- The plain read `m[k]`: the nil interface when the key is absent. -/
def GoMap.index (m : GoMap) (k : GoString) : Value := (m.get k).getD .nil

/-- The map after `delete(m, k)`. -/
def GoMap.delete (m : GoMap) (k : GoString) : GoMap :=
  ⟨m.entries.filter (fun kv => kv.1 ≠ k)⟩

/-- The map after `m[k] = v`. -/
def GoMap.set (m : GoMap) (k : GoString) (v : Value) : GoMap :=
  ⟨(k, v) :: (m.delete k).entries⟩

/-- The key `"_id"`. -/
def idKey : GoString := ascii "_id"

/-- A Go map value: `none` is the nil map, `some a` the table at address `a`. -/
abbrev MapRef := Option Nat

/-- The tables that exist, by address. -/
structure Heap where
  cells : List GoMap
  deriving DecidableEq, Repr

/-- The contents a map value shows to a reader; the nil map reads as empty. -/
def Heap.read (h : Heap) : MapRef → GoMap
  | none => ⟨[]⟩
  | some a => h.cells.getD a ⟨[]⟩

/-- A map value the heap knows: nil, or an address in use. -/
def Heap.valid (h : Heap) : MapRef → Prop
  | none => True
  | some a => a < h.cells.length

instance (h : Heap) (r : MapRef) : Decidable (h.valid r) := by
  cases r <;> simp only [Heap.valid] <;> infer_instance

/-- A new table with the given contents, at a fresh address. -/
def Heap.alloc (h : Heap) (m : GoMap) : Heap × Nat := (⟨h.cells ++ [m]⟩, h.cells.length)

/-- The heap after `m[k] = v` on the table at address `a`. -/
def Heap.assign (h : Heap) (a : Nat) (k : GoString) (v : Value) : Heap :=
  ⟨h.cells.set a ((h.read (some a)).set k v)⟩

/-- The heap after `delete(m, k)`; deleting from the nil map does nothing. -/
def Heap.delete (h : Heap) (r : MapRef) (k : GoString) : Heap :=
  match r with
  | none => h
  | some a => ⟨h.cells.set a ((h.read (some a)).delete k)⟩

/-- The function `cloneStringMap` of `helper.go`: `make` a table, then
`resultMap[key] = value` for each entry of `source` (Go leaves the order of `range` over
a map open; the entries are taken last to first). -/
def cloneStringMap (h : Heap) (source : MapRef) : Heap × Nat :=
  let (h, resultMap) := h.alloc ⟨[]⟩
  ((h.read source).entries.foldr (fun kv h => h.assign resultMap kv.1 kv.2) h, resultMap)

/-- The function `isBsonMContenNonEmptyKey`: `val, ok := data[key]; ok && val != nil`. -/
def isBsonMContenNonEmptyKey (data : GoMap) (key : GoString) : Bool :=
  match data.get key with
  | some val => val ≠ .nil
  | none => false

/-- The function `createMapFromBsonM`.  `message` is a conversion of `doc`, the same
table, so the write to `message["_id"]` is a write to `doc`.  `none` is the panic of the
type assertion `doc["_id"].(bson.ObjectId)`. -/
def createMapFromBsonM (h : Heap) (doc : MapRef) : Option (Heap × MapRef) :=
  let message := doc
  if isBsonMContenNonEmptyKey (h.read doc) idKey then
    match (h.read doc).index idKey, message with
    | .objectId id, some a =>
      let objectIDText := MarshalText id
      some (h.assign a idKey (.str objectIDText), message)
    | _, _ => none
  else some (h, message)

/-! ## The driver, the handler and the log of requests -/

/-- An `*mgo.Session`. -/
structure Session where
  id : Nat
  deriving DecidableEq, Repr

/-- The struct `mongoHandler`. -/
structure mongoHandler where
  host : GoString
  port : Int
  database : GoString
  autdb : GoString
  username : GoString
  password : GoString
  maxIdleTimeMS : Int
  connection : Option Session
  deriving DecidableEq, Repr

/-- The function `NewMongoHandler`. -/
def NewMongoHandler (host database authdb username password : GoString)
    (port maxIDLETimeMS : Int) : mongoHandler :=
  { host := host, port := port, database := database, autdb := authdb,
    username := username, password := password, maxIdleTimeMS := maxIDLETimeMS,
    connection := none }

/-- A request the handler sends out: a dial, the release of the handler's session, or an
operation on a collection.  The per-call `Copy()` of the session and its deferred
`Close()` are not logged.  `findPage` keeps the arguments the handler hands to `Sort`,
`Skip` and `Limit`. -/
inductive Op where
  | dial
  | close (s : Session)
  | count (coll : GoString) (filters : GoMap)
  | findPage (coll : GoString) (filters : GoMap) (sort : GoString) (skip limit : Int)
  | findAll (coll : GoString) (filters : GoMap)
  | findId (coll : GoString) (id : ObjectId)
  | findOne (coll : GoString) (selector : GoMap)
  | insert (coll : GoString) (doc : GoMap)
  | updateAll (coll : GoString) (selector : GoMap) (set : GoMap)
  | updateId (coll : GoString) (id : ObjectId) (doc : GoMap)
  | removeId (coll : GoString) (id : ObjectId)
  | remove (coll : GoString) (selector : GoMap)
  deriving DecidableEq, Repr

/-- Whether a request is a find, count, insert, update or remove on a collection. -/
def Op.onCollection : Op → Bool
  | .dial => false
  | .close _ => false
  | _ => true

/-- The answers of the mgo driver, the server behind it and `bson.NewObjectId`. -/
structure Backend where
  /-- The result of `mgo.DialWithInfo`. -/
  dial : Except GoError Session
  /-- The result of `bson.NewObjectId()`. -/
  newObjectId : ObjectId
  /-- The result of `c.Find(filters).Count()`. -/
  count : GoString → GoMap → Int × Option GoError
  /-- The documents of a collection that match a filter, in the order of a sort key
  (the empty key: natural order). -/
  matching : GoString → GoMap → GoString → List GoMap
  /-- A failure of `All`: how many documents were decoded before it, and the error. -/
  fetchFault : Option (Nat × GoError)
  /-- The result of `c.Insert(doc)`. -/
  insert : GoString → GoMap → Option GoError
  /-- The result of `c.FindId(id).One(&found)`. -/
  findId : GoString → ObjectId → Except GoError GoMap
  /-- The result of `c.Find(selector).One(&found)`. -/
  findOne : GoString → GoMap → Except GoError GoMap
  /-- The result of `c.UpdateAll`: the field `Updated` of the `*ChangeInfo` (`none` for
  a nil pointer) and the error. -/
  updateAll : GoString → GoMap → GoMap → Option Int × Option GoError
  /-- The result of `c.UpdateId`. -/
  updateId : GoString → ObjectId → GoMap → Option GoError
  /-- The result of `c.RemoveId`. -/
  removeId : GoString → ObjectId → Option GoError
  /-- The result of `c.Remove`. -/
  remove : GoString → GoMap → Option GoError

/-- The query modifier `Limit(n)`: at most `n` documents for `n > 0`, at most `-n` for
`n < 0`, no bound for `n = 0`. -/
def limitDocs (n : Int) (docs : List GoMap) : List GoMap :=
  if n = 0 then docs else docs.take n.natAbs

/-- The Go conversion `int32(n)` of an `int`: the value wrapped into the range of
`int32`. -/
def wrapInt32 (x : Int) : Int := (x + 2 ^ 31) % 2 ^ 32 - 2 ^ 31

/-- The number of documents the server is asked to skip when the handler calls
`Query.Skip(n)`: the driver stores `int32(n)` in the query it sends. -/
def serverSkip (n : Int) : Int := wrapInt32 n

/-- The result of `c.Find(filters).Sort(sort).Skip(skip).Limit(limit).All(&items)`: the
decoded documents and the error.  The server gets the skip as the driver stores it,
`serverSkip skip`, and refuses a negative one.  `Limit` is taken by what it promises of
its argument (`limitDocs`), as the listing's contract states it. -/
def Backend.page (b : Backend) (coll : GoString) (filters : GoMap) (sort : GoString)
    (skip limit : Int) : List GoMap × Option GoError :=
  if serverSkip skip < 0 then ([], some (.driver 2))
  else
    let docs := limitDocs limit ((b.matching coll filters sort).drop (serverSkip skip).toNat)
    match b.fetchFault with
    | none => (docs, none)
    | some (n, e) => (docs.take n, some e)

/-- The result of `c.Find(filters).All(&items)`. -/
def Backend.all (b : Backend) (coll : GoString) (filters : GoMap) :
    List GoMap × Option GoError :=
  match b.fetchFault with
  | none => (b.matching coll filters [], none)
  | some (n, e) => ((b.matching coll filters []).take n, some e)

/-- The handler, the caller's maps and the requests sent so far. -/
structure World where
  handler : mongoHandler
  heap : Heap
  ops : List Op
  deriving DecidableEq, Repr

/-- The end of a call: the world it leaves and what it returns; `ret = none` when the
call ends in a run-time panic. -/
structure Outcome (α : Type) where
  world : World
  ret : Option α

/-- The method `createMongoSession`: `mgo.DialWithInfo` with the handler's settings. -/
def createMongoSession (b : Backend) (_m : mongoHandler) : Option Session × Option GoError :=
  match b.dial with
  | .error err => (none, some err)
  | .ok mongoSession => (some mongoSession, none)

/-- The method `GetConnection`. -/
def GetConnection (b : Backend) (w : World) : World × Option GoError :=
  match w.handler.connection with
  | none =>
    let (connection, err) := createMongoSession b w.handler
    let w := { w with handler := { w.handler with connection := connection },
                      ops := w.ops ++ [Op.dial] }
    match err with
    | some err => (w, some err)
    | none => (w, none)
  | some _ => (w, none)

/-- The method `IsConnecting`. -/
def IsConnecting (w : World) : Bool := w.handler.connection ≠ none

/-- The method `CloseConnection`. -/
def CloseConnection (w : World) : World :=
  match w.handler.connection with
  | some s => { w with handler := { w.handler with connection := none },
                       ops := w.ops ++ [Op.close s] }
  | none => w

/-- The call `m.connection.Copy()`: the working session of one operation; `none` is the
nil-pointer panic of `Copy` on a handler without a session. -/
def Copy (w : World) : Option Session := w.handler.connection

/-- The world after one more request. -/
def World.send (w : World) (op : Op) : World := { w with ops := w.ops ++ [op] }

/-! ## Paged listing -/

/-- The struct `PagedResults`; `Items` holds Go maps. -/
structure PagedResults where
  Total : Int
  CurrentPage : Int
  TotalPage : Int
  PageSize : Int
  NextPage : Int
  PreviousPage : Int
  HasNextPage : Bool
  HasPreviousPage : Bool
  Items : List MapRef
  deriving DecidableEq, Repr

/-- The zero value `PagedResults{}`. -/
def PagedResults.zero : PagedResults :=
  { Total := 0, CurrentPage := 0, TotalPage := 0, PageSize := 0, NextPage := 0,
    PreviousPage := 0, HasNextPage := false, HasPreviousPage := false, Items := [] }

/-- The fields of the paginator of package `helper` that `GetAllItems` reads. -/
structure Paginator where
  TotalPage : Int
  NextPage : Int
  PreviousPage : Int
  HasNextPage : Bool
  HasPreviousPage : Bool
  deriving DecidableEq, Repr

/-- Functions of other packages that `GetAllItems` calls and whose code is not part of
package `db`; they are parameters of the embedding. -/
structure Library where
  /-- Go `strings.ToUpper`. -/
  ToUpper : GoString → GoString
  /-- The function `helper.NewPaginator(total, limit, page)`; `none` if it panics. -/
  NewPaginator : Int → Int → Int → Option Paginator

/-- Go `int` arithmetic on a 64-bit platform: the value wrapped into the range of
`int64`. -/
def wrapInt (x : Int) : Int := (x + 2 ^ 63) % 2 ^ 64 - 2 ^ 63

/-- The sort key of `GetAllItems`. -/
def sortString (lib : Library) (orderBy sortBy : GoString) : GoString :=
  if lib.ToUpper orderBy = ascii "DESC" then ascii "-" ++ sortBy else ascii "+" ++ sortBy

/-- The number of documents `GetAllItems` skips: `(page * limit) - limit`. -/
def skipCount (limit page : Int) : Int := wrapInt (wrapInt (page * limit) - limit)

/-- The documents `All(&items)` decodes, each a new table. -/
def allocItems (h : Heap) : List GoMap → Heap × List MapRef
  | [] => (h, [])
  | d :: rest =>
    let (h, a) := h.alloc d
    let (h, items) := allocItems h rest
    (h, some a :: items)

/-- The loop `for index, item := range items` of `GetAllItems` and
`GetAllItemsNoLimit`: `genericItems[index] = createMapFromBsonM(item.(bson.M))`; the
list is `none` when a conversion panics. -/
def convertItems (h : Heap) : List MapRef → Heap × Option (List MapRef)
  | [] => (h, some [])
  | doc :: rest =>
    match createMapFromBsonM h doc with
    | none => (h, none)
    | some (h, m) =>
      match convertItems h rest with
      | (h, some ms) => (h, some (m :: ms))
      | (h, none) => (h, none)

/-- The method `GetAllItems`.  The driver's `Sort` panics on an empty field name. -/
def GetAllItems (lib : Library) (b : Backend) (w : World) (dataname orderBy sortBy : GoString)
    (limit page : Int) (filters : MapRef) : Outcome (PagedResults × Option GoError) :=
  match GetConnection b w with
  | (w, some err) => ⟨w, some (PagedResults.zero, some err)⟩
  | (w, none) =>
    match Copy w with
    | none => ⟨w, none⟩
    | some _ =>
      let (total, err) := b.count dataname (w.heap.read filters)
      let w := w.send (.count dataname (w.heap.read filters))
      match err with
      | some err => ⟨w, some (PagedResults.zero, some err)⟩
      | none =>
        match lib.NewPaginator total limit page with
        | none => ⟨w, none⟩
        | some pagingInfor =>
          let sortString := sortString lib orderBy sortBy
          let skip := skipCount limit page
          if sortBy = [] then ⟨w, none⟩
          else
            -- the error of All is assigned to err and never read
            let (items, _err) := b.page dataname (w.heap.read filters) sortString skip limit
            let w := w.send (.findPage dataname (w.heap.read filters) sortString skip limit)
            let (heap, items) := allocItems w.heap items
            match convertItems heap items with
            | (heap, none) => ⟨{ w with heap := heap }, none⟩
            | (heap, some genericItems) =>
              ⟨{ w with heap := heap },
               some ({ Total := total, CurrentPage := page, TotalPage := pagingInfor.TotalPage,
                       PageSize := genericItems.length, NextPage := pagingInfor.NextPage,
                       PreviousPage := pagingInfor.PreviousPage,
                       HasNextPage := pagingInfor.HasNextPage,
                       HasPreviousPage := pagingInfor.HasPreviousPage,
                       Items := genericItems }, none)⟩

/-- The method `GetTotal`. -/
def GetTotal (b : Backend) (w : World) (dataname : GoString) (filters : MapRef) :
    Outcome (Int × Option GoError) :=
  match GetConnection b w with
  | (w, some err) => ⟨w, some (0, some err)⟩
  | (w, none) =>
    match Copy w with
    | none => ⟨w, none⟩
    | some _ =>
      let (total, err) := b.count dataname (w.heap.read filters)
      let w := w.send (.count dataname (w.heap.read filters))
      match err with
      | some err => ⟨w, some (0, some err)⟩
      | none => ⟨w, some (total, none)⟩

/-- The method `GetAllItemsNoLimit`; a nil slice and an empty one are both `[]`. -/
def GetAllItemsNoLimit (b : Backend) (w : World) (dataname : GoString) (filters : MapRef) :
    Outcome (List MapRef × Option GoError) :=
  match GetConnection b w with
  | (w, some err) => ⟨w, some ([], some err)⟩
  | (w, none) =>
    match Copy w with
    | none => ⟨w, none⟩
    | some _ =>
      let (items, err) := b.all dataname (w.heap.read filters)
      let w := w.send (.findAll dataname (w.heap.read filters))
      match err with
      | some err => ⟨w, some ([], some err)⟩
      | none =>
        let (heap, items) := allocItems w.heap items
        match convertItems heap items with
        | (heap, none) => ⟨{ w with heap := heap }, none⟩
        | (heap, some genericItems) => ⟨{ w with heap := heap }, some (genericItems, none)⟩

/-! ## Insert -/

/-- The method `AddNewItem` from `c.Insert(willInsertDoc)` on, once `willInsertDoc`
holds its native identifier. -/
def insertItem (b : Backend) (w : World) (dataName : GoString) (item : MapRef)
    (willInsertDoc : Nat) : Outcome (MapRef × Option GoError) :=
  match Copy w with
  | none => ⟨w, none⟩
  | some _ =>
    let err := b.insert dataName (w.heap.read (some willInsertDoc))
    let w := w.send (.insert dataName (w.heap.read (some willInsertDoc)))
    match err with
    | some err => ⟨w, some (item, some err)⟩
    | none =>
      -- return hexid
      match (w.heap.read (some willInsertDoc)).index idKey with
      | .objectId id =>
        let returnedID := MarshalText id
        let w := { w with heap := w.heap.assign willInsertDoc idKey (.str returnedID) }
        ⟨w, some (some willInsertDoc, none)⟩
      | _ => ⟨w, none⟩

/-- The method `AddNewItem`. -/
def AddNewItem (b : Backend) (w : World) (dataName : GoString) (item : MapRef) :
    Outcome (MapRef × Option GoError) :=
  -- Make sure not modify original map
  let (heap, willInsertDoc) := cloneStringMap w.heap item
  let w := { w with heap := heap }
  match GetConnection b w with
  | (w, some err) => ⟨w, some (some willInsertDoc, some err)⟩
  | (w, none) =>
    -- Create unique id for item
    let providedID := (w.heap.read (some willInsertDoc)).get idKey
    let w :=
      if providedID = none ∨ providedID = some .nil ∨ providedID = some (.str []) then
        { w with heap := w.heap.assign willInsertDoc idKey (.objectId b.newObjectId) }
      else w
    match (w.heap.read (some willInsertDoc)).index idKey with
    | .objectId _ => insertItem b w dataName item willInsertDoc
    | provided =>
      let (objectID, err) := createObjectID provided
      let w := { w with heap := w.heap.assign willInsertDoc idKey (.objectId objectID) }
      match err with
      | some err => ⟨w, some (some willInsertDoc, some err)⟩
      | none => insertItem b w dataName item willInsertDoc

/-! ## Lookup and removal -/

/-- The method `RemoveItemByID`.  The error of `GetConnection` is overwritten by the
result of `createObjectID` before it is read. -/
def RemoveItemByID (b : Backend) (w : World) (dataName : GoString) (id : Value) :
    Outcome (Option GoError) :=
  let (w, _err) := GetConnection b w
  match createObjectID id with
  | (_, some err) => ⟨w, some (some err)⟩
  | (objectID, none) =>
    match Copy w with
    | none => ⟨w, none⟩
    | some _ =>
      let response := b.removeId dataName objectID
      ⟨w.send (.removeId dataName objectID), some response⟩

/-- The method `FindItemByID`. -/
def FindItemByID (b : Backend) (w : World) (dataName : GoString) (id : Value) :
    Outcome (MapRef × Option GoError) :=
  let data : MapRef := none
  match GetConnection b w with
  | (w, some err) => ⟨w, some (data, some err)⟩
  | (w, none) =>
    match createObjectID id with
    | (_, some err) => ⟨w, some (data, some err)⟩
    | (objectID, none) =>
      match Copy w with
      | none => ⟨w, none⟩
      | some _ =>
        let w := w.send (.findId dataName objectID)
        match b.findId dataName objectID with
        | .error err => ⟨w, some (data, some err)⟩
        | .ok found =>
          let (heap, found) := w.heap.alloc found
          match createMapFromBsonM heap (some found) with
          | none => ⟨{ w with heap := heap }, none⟩
          | some (heap, data) => ⟨{ w with heap := heap }, some (data, none)⟩

/-- The method `FindBy`. -/
def FindBy (b : Backend) (w : World) (dataName : GoString) (selector : MapRef) :
    Outcome (MapRef × Option GoError) :=
  let data : MapRef := none
  match GetConnection b w with
  | (w, some err) => ⟨w, some (data, some err)⟩
  | (w, none) =>
    match Copy w with
    | none => ⟨w, none⟩
    | some _ =>
      let result := b.findOne dataName (w.heap.read selector)
      let w := w.send (.findOne dataName (w.heap.read selector))
      match result with
      | .error err => ⟨w, some (data, some err)⟩
      | .ok found =>
        let (heap, found) := w.heap.alloc found
        match createMapFromBsonM heap (some found) with
        | none => ⟨{ w with heap := heap }, none⟩
        | some (heap, data) => ⟨{ w with heap := heap }, some (data, none)⟩

/-- The method `RemoveItemBy`. -/
def RemoveItemBy (b : Backend) (w : World) (dataName : GoString) (selector : MapRef) :
    Outcome (Option GoError) :=
  match GetConnection b w with
  | (w, some err) => ⟨w, some (some err)⟩
  | (w, none) =>
    match Copy w with
    | none => ⟨w, none⟩
    | some _ =>
      let response := b.remove dataName (w.heap.read selector)
      ⟨w.send (.remove dataName (w.heap.read selector)), some response⟩

/-! ## Update -/

/-- The method `UpdateBy`.  The update sent is `bson.M{"$set": willUpdateDoc}`; the log
keeps the `$set` payload.  `rs.Updated` panics when `UpdateAll` returns a nil
`*ChangeInfo`. -/
def UpdateBy (b : Backend) (w : World) (dataName : GoString) (selector update : MapRef) :
    Outcome (Int × Option GoError) :=
  match GetConnection b w with
  | (w, some err) => ⟨w, some (0, some err)⟩
  | (w, none) =>
    let (heap, willUpdateDoc) := cloneStringMap w.heap update
    let (heap, willSelector) := cloneStringMap heap selector
    let heap := heap.delete update idKey
    let w := { w with heap := heap }
    match Copy w with
    | none => ⟨w, none⟩
    | some _ =>
      let (rs, err) := b.updateAll dataName (w.heap.read (some willSelector))
        (w.heap.read (some willUpdateDoc))
      let w := w.send (.updateAll dataName (w.heap.read (some willSelector))
        (w.heap.read (some willUpdateDoc)))
      match rs with
      | none => ⟨w, none⟩
      | some updated => ⟨w, some (updated, err)⟩

/-- The method `UpdateByID`. -/
def UpdateByID (b : Backend) (w : World) (dataName : GoString) (id : Value) (update : MapRef) :
    Outcome (Option GoError) :=
  match GetConnection b w with
  | (w, some err) => ⟨w, some (some err)⟩
  | (w, none) =>
    match Copy w with
    | none => ⟨w, none⟩
    | some _ =>
      -- Make sure to use correct object id
      match createObjectID id with
      | (_, some err) => ⟨w, some (some err)⟩
      | (objectID, none) =>
        -- Not allow to update id
        let (heap, willUpdateDoc) := cloneStringMap w.heap update
        let heap := heap.delete (some willUpdateDoc) idKey
        let w := { w with heap := heap }
        let response := b.updateId dataName objectID (w.heap.read (some willUpdateDoc))
        ⟨w.send (.updateId dataName objectID (w.heap.read (some willUpdateDoc))), some response⟩

/-! ## Words of the specification -/

/-- A hexadecimal character: `0`-`9`, `a`-`f` or `A`-`F`. -/
def isHexDigit (c : Byte) : Bool :=
  (48 ≤ c.val && c.val ≤ 57) || (97 ≤ c.val && c.val ≤ 102) || (65 ≤ c.val && c.val ≤ 70)

/-- The lower-case form of an ASCII letter; other bytes stay. -/
def asciiLower (c : Byte) : Byte := if 65 ≤ c.val ∧ c.val ≤ 90 then c + 32 else c

/-- The entries `cloneStringMap` writes into its new table, as a map. -/
def GoMap.copy (m : GoMap) : GoMap := m.entries.foldr (fun kv acc => acc.set kv.1 kv.2) ⟨[]⟩

/-- A backend that accepts the dial and every request, holds no documents and hands
out the given identifier. -/
def Backend.accepting (newId : ObjectId) : Backend :=
  { dial := .ok ⟨1⟩, newObjectId := newId, count := fun _ _ => (0, none),
    matching := fun _ _ _ => [], fetchFault := none, insert := fun _ _ => none,
    findId := fun _ _ => .error (.driver 0), findOne := fun _ _ => .error (.driver 0),
    updateAll := fun _ _ _ => (some 0, none), updateId := fun _ _ _ => none,
    removeId := fun _ _ => none, remove := fun _ _ => none }

/-- A backend like `Backend.accepting` whose collections hold the given documents, all
of them matching every filter. -/
def Backend.holding (docs : List GoMap) : Backend :=
  { Backend.accepting [] with
    count := fun _ _ => (docs.length, none), matching := fun _ _ _ => docs }

/-- The upper-case form of an ASCII letter; other bytes stay. -/
def asciiUpper (c : Byte) : Byte := if 97 ≤ c.val ∧ c.val ≤ 122 then c - 32 else c

/-- A library for examples: upper-casing of ASCII letters, and a paginator that follows
the invariants the specification gives for `PagedResult`. -/
def Library.sample : Library :=
  { ToUpper := List.map asciiUpper,
    NewPaginator := fun total limit page =>
      some { TotalPage := (total + limit - 1) / limit,
             NextPage := if page < (total + limit - 1) / limit then page + 1 else 0,
             PreviousPage := if 1 < page then page - 1 else 0,
             HasNextPage := page < (total + limit - 1) / limit,
             HasPreviousPage := 1 < page } }

/-- A handler that holds the session `s`, a heap with the given tables, nothing sent. -/
def World.connected (s : Session) (cells : List GoMap) : World :=
  { handler := { NewMongoHandler [] [] [] [] [] 27017 0 with connection := some s },
    heap := ⟨cells⟩, ops := [] }

/-- A handler that holds no session, a heap with the given tables, nothing sent. -/
def World.disconnected (cells : List GoMap) : World :=
  { handler := NewMongoHandler [] [] [] [] [] 27017 0, heap := ⟨cells⟩, ops := [] }

/-- A backend that refuses the dial with the driver error `e`. -/
def Backend.unreachable (e : GoError) : Backend :=
  { Backend.accepting [] with dial := .error e }

/-- A backend like `Backend.holding` whose page fetch fails with the driver error `e`
before any document is decoded. -/
def Backend.failingFetch (docs : List GoMap) (e : GoError) : Backend :=
  { Backend.holding docs with fetchFault := some (0, e) }

/-- A byte of an ASCII character. -/
def isASCII (c : Byte) : Bool := c.val < 128

/-- Two strings are equal ignoring letter case when their upper-case forms are equal;
`upper` is the upper-casing in use. -/
def equalsIgnoringCase (upper : GoString → GoString) (a b : GoString) : Prop :=
  upper a = upper b

/-! ## Hexadecimal text -/

theorem fromHexChar_hextable (n : Nat) (hn : n < 16) :
    fromHexChar (hextable.getD n 0) = some n := by
  interval_cases n <;> decide

set_option maxRecDepth 100000 in
theorem fromHexChar_digit_check (c : Byte) :
    (match fromHexChar c with
     | some a => decide (a < 16) && decide (hextable.getD a 0 = asciiLower c) && isHexDigit c
     | none => !isHexDigit c) = true := by
  revert c
  decide

theorem fromHexChar_some {c : Byte} {a : Nat} (h : fromHexChar c = some a) :
    a < 16 ∧ hextable.getD a 0 = asciiLower c ∧ isHexDigit c = true := by
  have := fromHexChar_digit_check c
  rw [h] at this
  simpa [Bool.and_eq_true, and_assoc] using this

theorem fromHexChar_none {c : Byte} (h : fromHexChar c = none) : isHexDigit c = false := by
  have := fromHexChar_digit_check c
  rw [h] at this
  simpa using this

theorem length_hexEncode (l : List Byte) : (hexEncode l).length = 2 * l.length := by
  induction l with
  | nil => rfl
  | cons v rest ih => simp [hexEncode, ih]; omega

theorem hexDecode_hexEncode (l : List Byte) : hexDecode (hexEncode l) = some l := by
  induction l with
  | nil => rfl
  | cons v rest ih =>
    have h1 : v.val / 16 < 16 := by omega
    have h2 : v.val % 16 < 16 := by omega
    have hv : (Fin.ofNat (v.val / 16 * 16 + v.val % 16) : Byte) = v := by
      apply Fin.ext
      simp only [Fin.ofNat, Fin.val_mk]
      omega
    simp only [hexEncode, hexDecode]
    rw [fromHexChar_hextable _ h1, fromHexChar_hextable _ h2]
    simp only [ih, hv]

theorem hexDecode_some {s d : List Byte} (h : hexDecode s = some d) :
    s.length = 2 * d.length ∧ hexEncode d = s.map asciiLower ∧
      ∀ c ∈ s, isHexDigit c = true := by
  induction s using hexDecode.induct generalizing d with
  | case1 =>
    simp only [hexDecode, Option.some.injEq] at h
    subst h
    simp [hexEncode]
  | case2 c => simp [hexDecode] at h
  | case3 c1 c2 rest a b hc2 hc1 out hout ih =>
    simp only [hexDecode, hc1, hc2, hout, Option.some.injEq] at h
    subst h
    obtain ⟨hlen, henc, hall⟩ := ih hout
    obtain ⟨ha, hta, hda⟩ := fromHexChar_some hc1
    obtain ⟨hb, htb, hdb⟩ := fromHexChar_some hc2
    have hq : (Fin.ofNat (a * 16 + b) : Byte).val / 16 = a := by
      simp only [Fin.ofNat, Fin.val_mk]; omega
    have hr : (Fin.ofNat (a * 16 + b) : Byte).val % 16 = b := by
      simp only [Fin.ofNat, Fin.val_mk]; omega
    refine ⟨by simp [hlen]; omega, ?_, ?_⟩
    · simp only [hexEncode, hq, hr, hta, htb, henc, List.map_cons]
    · intro c hc
      simp only [List.mem_cons] at hc
      rcases hc with rfl | rfl | hc
      · exact hda
      · exact hdb
      · exact hall c hc
  | case4 c1 c2 rest a b hc2 hc1 hout =>
    simp [hexDecode, hc1, hc2, hout] at h
  | case5 c1 c2 rest hxy =>
    have : hexDecode (c1 :: c2 :: rest) = none := by
      cases h1 : fromHexChar c1 with
      | none => simp [hexDecode, h1]
      | some a =>
        cases h2 : fromHexChar c2 with
        | none => simp [hexDecode, h1, h2]
        | some b => exact absurd h2 (fun hh => hxy a b h1 hh)
    rw [this] at h
    cases h

theorem hexDecode_isSome {s : List Byte} (heven : s.length % 2 = 0)
    (hall : ∀ c ∈ s, isHexDigit c = true) : (hexDecode s).isSome = true := by
  induction s using hexDecode.induct with
  | case1 => rfl
  | case2 c => simp at heven
  | case3 c1 c2 rest a b hc2 hc1 out hout ih =>
    simp [hexDecode, hc1, hc2, hout]
  | case4 c1 c2 rest a b hc2 hc1 hout ih =>
    have h1 : (hexDecode rest).isSome = true :=
      ih (by simp at heven; omega) (fun c hc => hall c (by simp [hc]))
    simp [hout] at h1
  | case5 c1 c2 rest hxy =>
    exfalso
    have d1 := hall c1 (by simp)
    have d2 := hall c2 (by simp)
    cases h1 : fromHexChar c1 with
    | none => rw [fromHexChar_none h1] at d1; cases d1
    | some a =>
      cases h2 : fromHexChar c2 with
      | none => rw [fromHexChar_none h2] at d2; cases d2
      | some b => exact hxy a b h1 h2

theorem IsObjectIdHex_iff (s : GoString) :
    IsObjectIdHex s = true ↔ s.length = 24 ∧ ∀ c ∈ s, isHexDigit c = true := by
  unfold IsObjectIdHex
  constructor
  · intro h
    split at h
    · cases h
    · rename_i hlen
      cases hd : hexDecode s with
      | none => simp [hd] at h
      | some d => exact ⟨by simpa using hlen, (hexDecode_some hd).2.2⟩
  · rintro ⟨hlen, hall⟩
    simp [hlen, hexDecode_isSome (by omega) hall]

/-- The call `bson.ObjectIdHex` in `createObjectID` cannot panic: it runs only after
`bson.IsObjectIdHex` has accepted the string. -/
theorem ObjectIdHex_of_IsObjectIdHex {s : GoString} (h : IsObjectIdHex s = true) :
    ∃ d, ObjectIdHex s = some d ∧ d.length = 12 := by
  obtain ⟨hlen, -⟩ := (IsObjectIdHex_iff s).1 h
  cases hd : hexDecode s with
  | none => simp [IsObjectIdHex, hlen, hd] at h
  | some d =>
    have h2 := (hexDecode_some hd).1
    have hd12 : d.length = 12 := by omega
    exact ⟨d, by simp [ObjectIdHex, hd, hd12], hd12⟩

/-! ## Maps -/

theorem lookup_filter_ne (es : List (GoString × Value)) (k k' : GoString) :
    List.lookup k' (es.filter (fun kv => kv.1 ≠ k)) = if k' = k then none else List.lookup k' es := by
  induction es with
  | nil => simp
  | cons e es ih =>
    obtain ⟨k1, v1⟩ := e
    rw [List.filter_cons]
    by_cases h1 : k1 = k
    · have hd : decide ((k1, v1).1 ≠ k) = false := by simp [h1]
      rw [hd, if_neg (by simp), ih]
      by_cases h2 : k' = k
      · simp only [h2, if_true]
      · have hb : (k' == k1) = false := by rw [h1]; simpa using h2
        simp only [h2, if_false, List.lookup_cons, hb]
    · have hd : decide ((k1, v1).1 ≠ k) = true := by simp [h1]
      rw [hd, if_pos rfl, List.lookup_cons, List.lookup_cons, ih]
      by_cases h2 : k' = k1
      · have hb : (k' == k1) = true := by simpa using h2
        have h3 : ¬ k' = k := by rw [h2]; exact h1
        simp only [hb, h3, if_false]
      · have hb : (k' == k1) = false := by simpa using h2
        simp only [hb]

theorem GoMap.get_delete (m : GoMap) (k k' : GoString) :
    (m.delete k).get k' = if k' = k then none else m.get k' := by
  simp only [GoMap.get, GoMap.delete, lookup_filter_ne]

theorem GoMap.get_set (m : GoMap) (k : GoString) (v : Value) (k' : GoString) :
    (m.set k v).get k' = if k' = k then some v else m.get k' := by
  by_cases h : k' = k
  · subst h
    simp [GoMap.get, GoMap.set, List.lookup_cons]
  · have hb : (k' == k) = false := by simpa using h
    have := GoMap.get_delete m k k'
    simp only [GoMap.get, h, if_false] at this
    simp [GoMap.get, GoMap.set, List.lookup_cons, hb, h, this]

theorem GoMap.get_copy (m : GoMap) (k : GoString) : m.copy.get k = m.get k := by
  obtain ⟨es⟩ := m
  induction es with
  | nil => rfl
  | cons e es ih =>
    obtain ⟨k1, v1⟩ := e
    have hstep : (GoMap.copy ⟨(k1, v1) :: es⟩) = (GoMap.copy ⟨es⟩).set k1 v1 := rfl
    rw [hstep, GoMap.get_set, ih]
    by_cases h : k = k1
    · subst h
      simp [GoMap.get, List.lookup_cons]
    · have hb : (k == k1) = false := by simpa using h
      simp [GoMap.get, List.lookup_cons, hb, h]

/-! ## The heap -/

theorem Heap.read_append_of_valid (cells : List GoMap) (m : GoMap) (r : MapRef)
    (hr : (Heap.mk cells).valid r) : (Heap.mk (cells ++ [m])).read r = (Heap.mk cells).read r := by
  cases r with
  | none => rfl
  | some a =>
    simp only [Heap.valid] at hr
    simp [Heap.read, List.getD_eq_getElem?_getD, List.getElem?_append_left hr]

theorem Heap.read_append_new (cells : List GoMap) (m : GoMap) :
    (Heap.mk (cells ++ [m])).read (some cells.length) = m := by
  simp [Heap.read, List.getD_eq_getElem?_getD]

theorem Heap.assign_append_new (cells : List GoMap) (m : GoMap) (k : GoString) (v : Value) :
    (Heap.mk (cells ++ [m])).assign cells.length k v = Heap.mk (cells ++ [m.set k v]) := by
  simp [Heap.assign, Heap.read_append_new]

theorem Heap.delete_append_new (cells : List GoMap) (m : GoMap) (k : GoString) :
    (Heap.mk (cells ++ [m])).delete (some cells.length) k = Heap.mk (cells ++ [m.delete k]) := by
  simp [Heap.delete, Heap.read_append_new]

theorem foldr_assign_append_new (cells : List GoMap) (es : List (GoString × Value)) (m0 : GoMap) :
    es.foldr (fun kv h => Heap.assign h cells.length kv.1 kv.2) (Heap.mk (cells ++ [m0])) =
      Heap.mk (cells ++ [es.foldr (fun kv acc => acc.set kv.1 kv.2) m0]) := by
  induction es with
  | nil => rfl
  | cons e es ih => simp only [List.foldr_cons, ih, Heap.assign_append_new]

/-- What `cloneStringMap` leaves: the old tables untouched, and one new table with
the entries of the source. -/
theorem cloneStringMap_eq (h : Heap) (source : MapRef) (hv : h.valid source) :
    cloneStringMap h source = (Heap.mk (h.cells ++ [(h.read source).copy]), h.cells.length) := by
  obtain ⟨cells⟩ := h
  simp only [cloneStringMap, Heap.alloc, Heap.read_append_of_valid cells _ source hv,
    foldr_assign_append_new, GoMap.copy]

theorem cloneStringMap_extends (h : Heap) (source : MapRef) :
    ∃ m, cloneStringMap h source = (Heap.mk (h.cells ++ [m]), h.cells.length) := by
  obtain ⟨cells⟩ := h
  simp only [cloneStringMap, Heap.alloc, foldr_assign_append_new]
  exact ⟨_, rfl⟩

theorem Heap.read_assign_same (h : Heap) (a : Nat) (k : GoString) (v : Value)
    (ha : a < h.cells.length) : (h.assign a k v).read (some a) = (h.read (some a)).set k v := by
  simp [Heap.assign, Heap.read, List.getD_eq_getElem?_getD, List.getElem?_set, ha]

theorem Heap.valid_of_get {h : Heap} {r : MapRef} {k : GoString} {v : Value}
    (hget : (h.read r).get k = some v) : h.valid r := by
  cases r with
  | none => trivial
  | some a =>
    by_contra hlt
    simp only [Heap.valid, not_lt] at hlt
    simp [Heap.read, List.getD_eq_getElem?_getD, List.getElem?_eq_none hlt, GoMap.get] at hget

theorem hexEncode_mem_hextable (l : List Byte) : ∀ c ∈ hexEncode l, c ∈ hextable := by
  have key : ∀ n : Nat, n < 16 → hextable.getD n 0 ∈ hextable := by
    intro n hn
    interval_cases n <;> decide
  induction l with
  | nil => simp [hexEncode]
  | cons v rest ih =>
    intro c hc
    simp only [hexEncode, List.mem_cons] at hc
    rcases hc with rfl | rfl | hc
    · exact key _ (by omega)
    · exact key _ (by omega)
    · exact ih c hc

/-- Parsing the text of a 12-byte identifier gives the identifier back. -/
theorem createObjectID_MarshalText (id : ObjectId) (hid : id.length = 12) :
    createObjectID (.str (MarshalText id)) = (id, none) := by
  have hlen : (hexEncode id).length = 24 := by rw [length_hexEncode, hid]
  simp [createObjectID, MarshalText, IsObjectIdHex, ObjectIdHex, hlen, hexDecode_hexEncode, hid]

/-- Every input that is neither an `ObjectId`, a string nor a `[]byte` is refused. -/
theorem createObjectID_unsupported (v : Value) (h1 : ∀ o, v ≠ .objectId o)
    (h2 : ∀ s, v ≠ .str s) (h3 : ∀ bs, v ≠ .bytes bs) :
    createObjectID v =
      ([], some (.errorString "Unsuported input: only support string and []byte")) := by
  cases v with
  | objectId o => exact absurd rfl (h1 o)
  | str s => exact absurd rfl (h2 s)
  | bytes bs => exact absurd rfl (h3 bs)
  | _ => rfl

/-- The byte sequences `createObjectID` accepts: the empty one, a single space, and 24
hexadecimal characters. -/
theorem createObjectID_bytes_ok_iff (bs : List Byte) :
    (createObjectID (.bytes bs)).2 = none ↔
      bs = [] ∨ bs = [32] ∨ (bs.length = 24 ∧ ∀ c ∈ bs, isHexDigit c = true) := by
  simp only [createObjectID, UnmarshalText]
  by_cases h0 : bs = []
  · subst h0; simp
  by_cases h1 : bs = [32]
  · subst h1; simp
  have hlen0 : bs.length ≠ 0 := by simpa using h0
  have hsp : ¬ (bs.length = 1 ∧ bs.head? = some 32) := by
    rintro ⟨hl, hh⟩
    match bs, hl, hh with
    | [c], _, hh =>
      simp only [List.head?_cons, Option.some.injEq] at hh
      exact h1 (by rw [hh])
  have hc : ¬ ((bs.length = 1 ∧ bs.head? = some 32) ∨ bs.length = 0) := by
    rintro (h | h)
    · exact hsp h
    · exact hlen0 h
  simp only [if_neg hc, h0, h1, false_or]
  by_cases h24 : bs.length = 24
  · have hne : ¬ bs.length ≠ 24 := by simpa using h24
    cases hd : hexDecode bs with
    | some d =>
      have hall := (hexDecode_some hd).2.2
      simp only [if_neg hne, hd]
      exact ⟨fun _ => ⟨h24, hall⟩, fun _ => trivial⟩
    | none =>
      simp only [if_neg hne, hd]
      refine ⟨fun h => by simp at h, fun h => ?_⟩
      have := hexDecode_isSome (by omega) h.2
      simp [hd] at this
  · simp [h24]

/-! ## Identifiers: C1, C2, C3, C9 -/

/-- C1: for a native document whose `"_id"` is a 12-byte `ObjectId`, `createMapFromBsonM`
returns the document with `"_id"` rewritten to the identifier's text (`MarshalText`: 24
lower-case hexadecimal characters), and `createObjectID` applied to that string succeeds
and returns the original identifier. -/
theorem createObjectID_createMapFromBsonM_roundtrip (h : Heap) (doc : Nat) (id : ObjectId)
    (hid : id.length = 12) (hdoc : (h.read (some doc)).get idKey = some (.objectId id)) :
    ∃ h' s, createMapFromBsonM h (some doc) = some (h', some doc) ∧
      (h'.read (some doc)).get idKey = some (.str s) ∧
      s = MarshalText id ∧ s.length = 24 ∧ (∀ c ∈ s, c ∈ hextable) ∧
      createObjectID (.str s) = (id, none) := by
  have hv : doc < h.cells.length := Heap.valid_of_get hdoc
  refine ⟨h.assign doc idKey (.str (MarshalText id)), MarshalText id, ?_, ?_, rfl, ?_, ?_, ?_⟩
  · simp [createMapFromBsonM, isBsonMContenNonEmptyKey, GoMap.index, hdoc]
  · rw [Heap.read_assign_same _ _ _ _ hv, GoMap.get_set, if_pos rfl]
  · rw [MarshalText, length_hexEncode, hid]
  · exact hexEncode_mem_hextable id
  · exact createObjectID_MarshalText id hid

/-- Witness for C1: a stored document `{_id: ObjectId(0c 0c ... 0c)}`. -/
theorem createObjectID_createMapFromBsonM_roundtrip_witness :
    ∃ h' s, createMapFromBsonM ⟨[⟨[(idKey, .objectId (List.replicate 12 12))]⟩]⟩ (some 0)
        = some (h', some 0) ∧
      (h'.read (some 0)).get idKey = some (.str s) ∧
      s = MarshalText (List.replicate 12 12) ∧ s.length = 24 ∧ (∀ c ∈ s, c ∈ hextable) ∧
      createObjectID (.str s) = (List.replicate 12 12, none) :=
  createObjectID_createMapFromBsonM_roundtrip ⟨[⟨[(idKey, .objectId (List.replicate 12 12))]⟩]⟩ 0
    (List.replicate 12 12) (by decide) (by decide)

/-- C2: `createObjectID` on a string succeeds exactly when the string is 24 hexadecimal
characters; the identifier it then returns has 12 bytes and its hexadecimal text is the
string in lower case; on failure it returns the empty identifier `""` with the error;
`"fdsafas"` and `""` are rejected; a native `ObjectId` is returned unchanged. -/
theorem createObjectID_string_iff (s : GoString) :
    ((createObjectID (.str s)).2 = none ↔ (s.length = 24 ∧ ∀ c ∈ s, isHexDigit c = true)) ∧
    ((createObjectID (.str s)).2 = none →
      (createObjectID (.str s)).1.length = 12 ∧
      MarshalText (createObjectID (.str s)).1 = s.map asciiLower) ∧
    ((createObjectID (.str s)).2 ≠ none → (createObjectID (.str s)).1 = []) ∧
    (createObjectID (.str (ascii "fdsafas"))).2 ≠ none ∧
    (createObjectID (.str [])).2 ≠ none ∧
    ∀ oid : ObjectId, createObjectID (.objectId oid) = (oid, none) := by
  refine ⟨?_, ?_, ?_, by decide, by decide, fun oid => rfl⟩
  · rw [← IsObjectIdHex_iff]
    cases hh : IsObjectIdHex s <;> simp [createObjectID, hh]
  · intro hok
    have hh : IsObjectIdHex s = true := by
      cases hh : IsObjectIdHex s
      · simp [createObjectID, hh] at hok
      · rfl
    obtain ⟨hlen, -⟩ := (IsObjectIdHex_iff s).1 hh
    cases hd : hexDecode s with
    | none => simp [IsObjectIdHex, hlen, hd] at hh
    | some d =>
      obtain ⟨h2, henc, -⟩ := hexDecode_some hd
      have hd12 : d.length = 12 := by omega
      simp [createObjectID, hh, ObjectIdHex, hd, hd12, MarshalText, henc]
  · intro hfail
    cases hh : IsObjectIdHex s
    · simp [createObjectID, hh]
    · simp [createObjectID, hh] at hfail

/-- C3 (the code at the failing input): `createObjectID` on the empty byte sequence, and
on the single byte `' '`, returns no error together with the identifier `""`, which is
not a 12-byte identifier. -/
theorem createObjectID_empty_bytes_accepted :
    createObjectID (.bytes []) = ([], none) ∧ createObjectID (.bytes [32]) = ([], none) ∧
      (createObjectID (.bytes [])).1.length ≠ 12 := by
  decide

/-- C9 (the code at the failing input): the error `createObjectID` returns for
`"not-a-valid-id"` is an `errors.New` value, and for no input at all is it a value of
type `InvalidObjectIDError`. -/
theorem createObjectID_error_not_InvalidObjectIDError :
    createObjectID (.str (ascii "not-a-valid-id")) = ([], some (.errorString "Wrong id format")) ∧
      ∀ (id : Value) (message : String),
        (createObjectID id).2 ≠ some (.invalidObjectID message) := by
  refine ⟨by decide, ?_⟩
  intro id message
  cases id <;> simp only [createObjectID] <;> (try split) <;> simp

/-! ## The connection -/

theorem GetConnection_heap (b : Backend) (w : World) : (GetConnection b w).1.heap = w.heap := by
  unfold GetConnection createMongoSession
  cases w.handler.connection <;> cases b.dial <;> rfl

theorem GetConnection_connected {b : Backend} {w : World} {s : Session}
    (h : w.handler.connection = some s) : GetConnection b w = (w, none) := by
  unfold GetConnection
  rw [h]

theorem GetConnection_ok_connection {b : Backend} {w : World}
    (h : (GetConnection b w).2 = none) : ∃ s, (GetConnection b w).1.handler.connection = some s := by
  unfold GetConnection createMongoSession at h ⊢
  cases hc : w.handler.connection with
  | some s => exact ⟨s, by simp [hc]⟩
  | none =>
    cases hd : b.dial with
    | error e => simp [hc, hd] at h
    | ok s => exact ⟨s, by simp [hc, hd]⟩

/-! ## Insert: C4 -/

theorem insertItem_heap (b : Backend) (w : World) (dataName : GoString) (item : MapRef)
    (cells : List GoMap) (m : GoMap) (hw : w.heap = Heap.mk (cells ++ [m])) :
    ∃ m', (insertItem b w dataName item cells.length).world.heap = Heap.mk (cells ++ [m']) := by
  unfold insertItem
  cases Copy w with
  | none => exact ⟨m, hw⟩
  | some s =>
    simp only
    cases b.insert dataName (w.heap.read (some cells.length)) with
    | some e => exact ⟨m, hw⟩
    | none =>
      simp only [World.send, hw]
      split
      · exact ⟨_, Heap.assign_append_new cells m _ _⟩
      · exact ⟨m, rfl⟩

theorem GoMap.index_set_same (m : GoMap) (k : GoString) (v : Value) :
    (m.set k v).index k = v := by
  simp [GoMap.index, GoMap.get_set]

theorem AddNewItem_heap (b : Backend) (w : World) (dataName : GoString) (item : MapRef) :
    ∃ m, (AddNewItem b w dataName item).world.heap = Heap.mk (w.heap.cells ++ [m]) := by
  obtain ⟨m, hm⟩ := cloneStringMap_extends w.heap item
  unfold AddNewItem
  simp only [hm]
  have hg := GetConnection_heap b { w with heap := Heap.mk (w.heap.cells ++ [m]) }
  rcases hgc : GetConnection b { w with heap := Heap.mk (w.heap.cells ++ [m]) } with ⟨w1, e⟩
  rw [hgc] at hg
  obtain ⟨hd1, hp1, ops1⟩ := w1
  simp only at hg
  subst hg
  cases e with
  | some err => exact ⟨m, rfl⟩
  | none =>
    simp only [Heap.read_append_new, Heap.assign_append_new]
    by_cases hcond : m.get idKey = none ∨ m.get idKey = some Value.nil ∨
        m.get idKey = some (Value.str [])
    · simp only [if_pos hcond, Heap.read_append_new, GoMap.index_set_same]
      exact insertItem_heap b _ dataName item _ _ rfl
    · simp only [if_neg hcond, Heap.read_append_new, Heap.assign_append_new]
      cases hidx : m.index idKey with
      | objectId id => exact insertItem_heap b _ dataName item _ _ rfl
      | _ =>
        simp only
        rcases hco : createObjectID _ with ⟨oid, _ | err⟩
        · exact insertItem_heap b _ dataName item _ _ rfl
        · exact ⟨_, rfl⟩

/-- C4: whatever the backend answers (dial failure, identifier parse failure, insert
failure or success), after `AddNewItem` the caller's item map holds exactly the entries
it held before the call; the same goes for every other map the caller holds. -/
theorem AddNewItem_leaves_item_unchanged (b : Backend) (w : World) (dataName : GoString)
    (item : MapRef) (hv : w.heap.valid item) :
    (AddNewItem b w dataName item).world.heap.read item = w.heap.read item ∧
      ∀ r, w.heap.valid r → (AddNewItem b w dataName item).world.heap.read r = w.heap.read r := by
  obtain ⟨m, hm⟩ := AddNewItem_heap b w dataName item
  have key : ∀ r, w.heap.valid r →
      (AddNewItem b w dataName item).world.heap.read r = w.heap.read r := by
    intro r hr
    rw [hm]
    exact Heap.read_append_of_valid w.heap.cells m r hr
  exact ⟨key item hv, key⟩

/-- Witness for C4: a connected handler and the item `{content: "hi"}`. -/
theorem AddNewItem_leaves_item_unchanged_witness :
    (World.connected ⟨1⟩ [⟨[(ascii "content", .str (ascii "hi"))]⟩]).heap.valid (some 0) ∧
    ((AddNewItem (Backend.accepting (List.replicate 12 7))
        (World.connected ⟨1⟩ [⟨[(ascii "content", .str (ascii "hi"))]⟩]) (ascii "msgs")
        (some 0)).world.heap.read (some 0)
      = (World.connected ⟨1⟩ [⟨[(ascii "content", .str (ascii "hi"))]⟩]).heap.read (some 0) ∧
    ∀ r, (World.connected ⟨1⟩ [⟨[(ascii "content", .str (ascii "hi"))]⟩]).heap.valid r →
      (AddNewItem (Backend.accepting (List.replicate 12 7))
        (World.connected ⟨1⟩ [⟨[(ascii "content", .str (ascii "hi"))]⟩]) (ascii "msgs")
        (some 0)).world.heap.read r
      = (World.connected ⟨1⟩ [⟨[(ascii "content", .str (ascii "hi"))]⟩]).heap.read r) :=
  ⟨by decide, AddNewItem_leaves_item_unchanged _ _ _ _ (by decide)⟩

/-! ## Insert: C7 -/

theorem GetConnection_with_heap (b : Backend) (w : World) (h : Heap) :
    GetConnection b { w with heap := h } =
      ({ (GetConnection b w).1 with heap := h }, (GetConnection b w).2) := by
  unfold GetConnection createMongoSession
  cases w.handler.connection <;> cases b.dial <;> rfl

theorem insertItem_eq (b : Backend) (w : World) (dataName : GoString) (item : MapRef)
    (cells : List GoMap) (m : GoMap) (s : Session) (id : ObjectId)
    (hw : w.heap = Heap.mk (cells ++ [m])) (hc : w.handler.connection = some s)
    (hid : m.index idKey = .objectId id) :
    insertItem b w dataName item cells.length =
      match b.insert dataName m with
      | some err => ⟨w.send (.insert dataName m), some (item, some err)⟩
      | none =>
        ⟨{ w.send (.insert dataName m) with
            heap := Heap.mk (cells ++ [m.set idKey (.str (MarshalText id))]) },
         some (some cells.length, none)⟩ := by
  unfold insertItem Copy
  simp only [hc, hw, Heap.read_append_new]
  cases b.insert dataName m with
  | some err => rfl
  | none => simp only [World.send, hw, Heap.read_append_new, hid, Heap.assign_append_new]

/-- C7: for an item whose `"_id"` is absent, nil or `""`, when `AddNewItem` returns a
document `r` with a nil error: the one request sent after the connection step is the
insert of a document whose `"_id"` is the native identifier `bson.NewObjectId()` gave
(12 bytes) and whose other fields are the item's; the returned document agrees with the
item on every field other than `"_id"`; its `"_id"` is a non-empty string, and
`createObjectID` on that string gives back exactly the identifier that was inserted. -/
theorem AddNewItem_fresh_id_roundtrip (b : Backend) (w : World) (dataName : GoString)
    (item r : MapRef) (hv : w.heap.valid item)
    (habsent : (w.heap.read item).get idKey = none ∨ (w.heap.read item).get idKey = some .nil ∨
      (w.heap.read item).get idKey = some (.str []))
    (hnew : b.newObjectId.length = 12)
    (hok : (AddNewItem b w dataName item).ret = some (r, none)) :
    ∃ doc s,
      (AddNewItem b w dataName item).world.ops
        = (GetConnection b w).1.ops ++ [Op.insert dataName doc] ∧
      doc.get idKey = some (.objectId b.newObjectId) ∧
      (∀ k, k ≠ idKey → doc.get k = (w.heap.read item).get k) ∧
      (∀ k, k ≠ idKey →
        ((AddNewItem b w dataName item).world.heap.read r).get k = (w.heap.read item).get k) ∧
      ((AddNewItem b w dataName item).world.heap.read r).get idKey = some (.str s) ∧
      s ≠ [] ∧ createObjectID (.str s) = (b.newObjectId, none) := by
  have hcopy : ∀ k, (w.heap.read item).copy.get k = (w.heap.read item).get k :=
    GoMap.get_copy _
  have hcond : (w.heap.read item).copy.get idKey = none ∨
      (w.heap.read item).copy.get idKey = some Value.nil ∨
      (w.heap.read item).copy.get idKey = some (Value.str []) := by
    rw [hcopy]; exact habsent
  have hAdd : AddNewItem b w dataName item =
      match (GetConnection b w).2 with
      | some err =>
        ⟨{ (GetConnection b w).1 with heap := Heap.mk (w.heap.cells ++ [(w.heap.read item).copy]) },
          some (some w.heap.cells.length, some err)⟩
      | none =>
        insertItem b
          { (GetConnection b w).1 with
            heap := Heap.mk (w.heap.cells ++
              [(w.heap.read item).copy.set idKey (.objectId b.newObjectId)]) }
          dataName item w.heap.cells.length := by
    unfold AddNewItem
    simp only [cloneStringMap_eq w.heap item hv, GetConnection_with_heap]
    rcases GetConnection b w with ⟨w1, _ | err⟩
    · simp only [Heap.read_append_new, if_pos hcond, Heap.assign_append_new,
        GoMap.index_set_same]
    · rfl
  rw [hAdd] at hok ⊢
  cases hg : (GetConnection b w).2 with
  | some err => simp [hg] at hok
  | none =>
    obtain ⟨sess, hsess⟩ := GetConnection_ok_connection hg
    have hins := insertItem_eq b
      { (GetConnection b w).1 with
        heap := Heap.mk (w.heap.cells ++
          [(w.heap.read item).copy.set idKey (.objectId b.newObjectId)]) }
      dataName item w.heap.cells _ sess b.newObjectId rfl hsess (GoMap.index_set_same _ _ _)
    simp only [hg, hins] at hok ⊢
    cases hb : b.insert dataName
        ((w.heap.read item).copy.set idKey (.objectId b.newObjectId)) with
    | some err => simp [hb] at hok
    | none =>
      simp only [hb, Option.some.injEq, Prod.mk.injEq, and_true] at hok ⊢
      subst hok
      refine ⟨_, MarshalText b.newObjectId, rfl, ?_, ?_, ?_, ?_, ?_, ?_⟩
      · rw [GoMap.get_set, if_pos rfl]
      · intro k hk
        rw [GoMap.get_set, if_neg hk, hcopy]
      · intro k hk
        rw [Heap.read_append_new, GoMap.get_set, if_neg hk, GoMap.get_set, if_neg hk, hcopy]
      · rw [Heap.read_append_new, GoMap.get_set, if_pos rfl]
      · intro hnil
        have := length_hexEncode b.newObjectId
        rw [MarshalText] at hnil
        rw [hnil, hnew] at this
        simp at this
      · exact createObjectID_MarshalText _ hnew

/-- Witness for C7: the item `{content: "hi"}` on a connected handler, the backend
accepting the insert. -/
theorem AddNewItem_fresh_id_roundtrip_witness :
    ∃ doc s,
      (AddNewItem (Backend.accepting (List.replicate 12 7))
        (World.connected ⟨1⟩ [⟨[(ascii "content", .str (ascii "hi"))]⟩]) (ascii "msgs")
        (some 0)).world.ops
        = (GetConnection (Backend.accepting (List.replicate 12 7))
            (World.connected ⟨1⟩ [⟨[(ascii "content", .str (ascii "hi"))]⟩])).1.ops
          ++ [Op.insert (ascii "msgs") doc] ∧
      doc.get idKey = some (.objectId (Backend.accepting (List.replicate 12 7)).newObjectId) ∧
      (∀ k, k ≠ idKey → doc.get k =
        ((World.connected ⟨1⟩ [⟨[(ascii "content", .str (ascii "hi"))]⟩]).heap.read (some 0)).get k) ∧
      (∀ k, k ≠ idKey →
        ((AddNewItem (Backend.accepting (List.replicate 12 7))
          (World.connected ⟨1⟩ [⟨[(ascii "content", .str (ascii "hi"))]⟩]) (ascii "msgs")
          (some 0)).world.heap.read (some 1)).get k =
        ((World.connected ⟨1⟩ [⟨[(ascii "content", .str (ascii "hi"))]⟩]).heap.read (some 0)).get k) ∧
      ((AddNewItem (Backend.accepting (List.replicate 12 7))
        (World.connected ⟨1⟩ [⟨[(ascii "content", .str (ascii "hi"))]⟩]) (ascii "msgs")
        (some 0)).world.heap.read (some 1)).get idKey = some (.str s) ∧
      s ≠ [] ∧
      createObjectID (.str s) = ((Backend.accepting (List.replicate 12 7)).newObjectId, none) :=
  AddNewItem_fresh_id_roundtrip (Backend.accepting (List.replicate 12 7))
    (World.connected ⟨1⟩ [⟨[(ascii "content", .str (ascii "hi"))]⟩]) (ascii "msgs")
    (some 0) (some 1) (by decide) (by decide) (by decide) (by decide)

/-! ## Invalid identifiers: C8 -/

theorem createObjectID_rejects_not_objectId {id : Value} {e : GoError}
    (hrej : (createObjectID id).2 = some e) : ∀ oid, id ≠ .objectId oid := by
  intro oid h
  subst h
  simp [createObjectID] at hrej

/-- C8: on a handler that holds a session, for an identifier value `id` that
`createObjectID` rejects with error `e`: `FindItemByID`, `UpdateByID` and
`RemoveItemByID` return `e` and send nothing to the backend, and so does `AddNewItem` on
an item whose `"_id"` is `id` when `id` is neither nil nor `""`. -/
theorem invalid_id_sends_nothing (b : Backend) (w : World) (dataName : GoString) (id : Value)
    (s : Session) (e : GoError) (hconn : w.handler.connection = some s)
    (hrej : (createObjectID id).2 = some e) :
    ((FindItemByID b w dataName id).ret = some (none, some e) ∧
      (FindItemByID b w dataName id).world.ops = w.ops) ∧
    (∀ update, (UpdateByID b w dataName id update).ret = some (some e) ∧
      (UpdateByID b w dataName id update).world.ops = w.ops) ∧
    ((RemoveItemByID b w dataName id).ret = some (some e) ∧
      (RemoveItemByID b w dataName id).world.ops = w.ops) ∧
    (∀ item, (w.heap.read item).get idKey = some id → id ≠ .nil → id ≠ .str [] →
      (∃ r, (AddNewItem b w dataName item).ret = some (r, some e)) ∧
      (AddNewItem b w dataName item).world.ops = w.ops) := by
  rcases hco : createObjectID id with ⟨oid, err⟩
  rw [hco] at hrej
  simp only at hrej
  subst hrej
  refine ⟨?_, ?_, ?_, ?_⟩
  · simp [FindItemByID, GetConnection_connected hconn, hco]
  · intro update
    simp [UpdateByID, GetConnection_connected hconn, Copy, hconn, hco]
  · simp [RemoveItemByID, GetConnection_connected hconn, hco]
  · intro item hitem hnil hempty
    have hv : w.heap.valid item := Heap.valid_of_get hitem
    have hget : (w.heap.read item).copy.get idKey = some id := by
      rw [GoMap.get_copy]; exact hitem
    have hcond : ¬ ((w.heap.read item).copy.get idKey = none ∨
        (w.heap.read item).copy.get idKey = some Value.nil ∨
        (w.heap.read item).copy.get idKey = some (Value.str [])) := by
      rw [hget]
      simp only [Option.some.injEq, not_or]
      exact ⟨by simp, hnil, hempty⟩
    have hidx : (w.heap.read item).copy.index idKey = id := by
      simp [GoMap.index, hget]
    have hconn' : ({ w with heap := Heap.mk (w.heap.cells ++ [(w.heap.read item).copy]) } :
        World).handler.connection = some s := hconn
    unfold AddNewItem
    simp only [cloneStringMap_eq w.heap item hv, GetConnection_connected hconn',
      Heap.read_append_new, if_neg hcond, hidx]
    cases id with
    | objectId o => simp [createObjectID] at hco
    | _ => simp [hco]

/-- Witness for C8: the id `"fdsafas"` of `TestInvalidRemoveItemByID` on a connected
handler. -/
theorem invalid_id_sends_nothing_witness :
    (createObjectID (.str (ascii "fdsafas"))).2 = some (.errorString "Wrong id format") ∧
    ((RemoveItemByID (Backend.accepting []) (World.connected ⟨1⟩ []) (ascii "msgs")
        (.str (ascii "fdsafas"))).ret = some (some (.errorString "Wrong id format")) ∧
      (RemoveItemByID (Backend.accepting []) (World.connected ⟨1⟩ []) (ascii "msgs")
        (.str (ascii "fdsafas"))).world.ops = (World.connected ⟨1⟩ []).ops) :=
  ⟨by decide,
   (invalid_id_sends_nothing (Backend.accepting []) (World.connected ⟨1⟩ []) (ascii "msgs")
      (.str (ascii "fdsafas")) ⟨1⟩ (.errorString "Wrong id format") rfl (by decide)).2.2.1⟩

/-! ## Update: C5, C6 -/

/-- C5 (the code at the failing input): `UpdateBy` with selector `{targetUserID: 12}` and
update `{_id: "abc", seen: false}`.  The `$set` payload sent to the backend still holds
`"_id"`, and after the call the caller's update map has lost its `"_id"` entry:
`delete(update, "_id")` works on the caller's map, not on the copy. -/
theorem UpdateBy_deletes_id_from_caller_map :
    (UpdateBy (Backend.accepting [])
        (World.connected ⟨1⟩ [⟨[(ascii "targetUserID", .int 12)]⟩,
          ⟨[(idKey, .str (ascii "abc")), (ascii "seen", .bool false)]⟩])
        (ascii "msgs") (some 0) (some 1)).world.ops
      = [Op.updateAll (ascii "msgs") ⟨[(ascii "targetUserID", .int 12)]⟩
          ⟨[(idKey, .str (ascii "abc")), (ascii "seen", .bool false)]⟩] ∧
    ((World.connected ⟨1⟩ [⟨[(ascii "targetUserID", .int 12)]⟩,
          ⟨[(idKey, .str (ascii "abc")), (ascii "seen", .bool false)]⟩]).heap.read
        (some 1)).get idKey = some (.str (ascii "abc")) ∧
    ((UpdateBy (Backend.accepting [])
        (World.connected ⟨1⟩ [⟨[(ascii "targetUserID", .int 12)]⟩,
          ⟨[(idKey, .str (ascii "abc")), (ascii "seen", .bool false)]⟩])
        (ascii "msgs") (some 0) (some 1)).world.heap.read (some 1)).get idKey = none := by
  decide

/-- C6: when the handler has (or gets) a session and `createObjectID` accepts the id as
`oid`, `UpdateByID` sends one request, the replacement of the document `oid` by a
document without `"_id"` that agrees with the caller's update on every other field,
and returns the backend's answer; the caller's update map holds after the call exactly
the entries it held before. -/
theorem UpdateByID_strips_id_from_copy (b : Backend) (w : World) (dataName : GoString)
    (id : Value) (update : MapRef) (oid : ObjectId) (hv : w.heap.valid update)
    (hid : createObjectID id = (oid, none)) (hconn : (GetConnection b w).2 = none) :
    ∃ doc,
      (UpdateByID b w dataName id update).world.ops
        = (GetConnection b w).1.ops ++ [Op.updateId dataName oid doc] ∧
      doc.get idKey = none ∧
      (∀ k, k ≠ idKey → doc.get k = (w.heap.read update).get k) ∧
      (UpdateByID b w dataName id update).world.heap.read update = w.heap.read update ∧
      (UpdateByID b w dataName id update).ret = some (b.updateId dataName oid doc) := by
  obtain ⟨sess, hsess⟩ := GetConnection_ok_connection hconn
  have hheap := GetConnection_heap b w
  rcases hg : GetConnection b w with ⟨⟨hd1, hp1, ops1⟩, e⟩
  rw [hg] at hconn hsess hheap
  simp only at hconn hsess hheap
  subst hconn
  subst hheap
  have hU : UpdateByID b w dataName id update =
      ⟨{ handler := hd1,
         heap := Heap.mk (w.heap.cells ++ [((w.heap.read update).copy).delete idKey]),
         ops := ops1 ++ [Op.updateId dataName oid (((w.heap.read update).copy).delete idKey)] },
       some (b.updateId dataName oid (((w.heap.read update).copy).delete idKey))⟩ := by
    simp only [UpdateByID, hg, Copy, hsess, hid, cloneStringMap_eq w.heap update hv,
      Heap.delete_append_new, Heap.read_append_new, World.send]
  rw [hU]
  refine ⟨((w.heap.read update).copy).delete idKey, rfl, ?_, ?_, ?_, rfl⟩
  · rw [GoMap.get_delete, if_pos rfl]
  · intro k hk
    rw [GoMap.get_delete, if_neg hk, GoMap.get_copy]
  · exact Heap.read_append_of_valid w.heap.cells _ update hv

/-- Witness for C6: the update `{_id: "abc", seen: true}` on a connected handler. -/
theorem UpdateByID_strips_id_from_copy_witness :
    ∃ doc,
      (UpdateByID (Backend.accepting []) (World.connected ⟨1⟩
          [⟨[(idKey, .str (ascii "abc")), (ascii "seen", .bool true)]⟩]) (ascii "msgs")
          (.objectId (List.replicate 12 7)) (some 0)).world.ops
        = (GetConnection (Backend.accepting []) (World.connected ⟨1⟩
            [⟨[(idKey, .str (ascii "abc")), (ascii "seen", .bool true)]⟩])).1.ops
          ++ [Op.updateId (ascii "msgs") (List.replicate 12 7) doc] ∧
      doc.get idKey = none ∧
      (∀ k, k ≠ idKey → doc.get k = ((World.connected ⟨1⟩
          [⟨[(idKey, .str (ascii "abc")), (ascii "seen", .bool true)]⟩]).heap.read (some 0)).get k) ∧
      (UpdateByID (Backend.accepting []) (World.connected ⟨1⟩
          [⟨[(idKey, .str (ascii "abc")), (ascii "seen", .bool true)]⟩]) (ascii "msgs")
          (.objectId (List.replicate 12 7)) (some 0)).world.heap.read (some 0)
        = (World.connected ⟨1⟩
          [⟨[(idKey, .str (ascii "abc")), (ascii "seen", .bool true)]⟩]).heap.read (some 0) ∧
      (UpdateByID (Backend.accepting []) (World.connected ⟨1⟩
          [⟨[(idKey, .str (ascii "abc")), (ascii "seen", .bool true)]⟩]) (ascii "msgs")
          (.objectId (List.replicate 12 7)) (some 0)).ret
        = some ((Backend.accepting []).updateId (ascii "msgs") (List.replicate 12 7) doc) :=
  UpdateByID_strips_id_from_copy (Backend.accepting []) (World.connected ⟨1⟩
      [⟨[(idKey, .str (ascii "abc")), (ascii "seen", .bool true)]⟩]) (ascii "msgs")
    (.objectId (List.replicate 12 7)) (some 0) (List.replicate 12 7) (by decide) rfl rfl

/-! ## Paged listing: C10 -/

theorem allocItems_length (h : Heap) (docs : List GoMap) :
    (allocItems h docs).2.length = docs.length := by
  induction docs generalizing h with
  | nil => rfl
  | cons d rest ih => simp [allocItems, ih]

theorem convertItems_length {h h' : Heap} {items ms : List MapRef}
    (hc : convertItems h items = (h', some ms)) : ms.length = items.length := by
  induction items generalizing h h' ms with
  | nil =>
    simp only [convertItems, Prod.mk.injEq, Option.some.injEq] at hc
    rw [← hc.2]
  | cons doc rest ih =>
    simp only [convertItems] at hc
    cases h1 : createMapFromBsonM h doc with
    | none => simp [h1] at hc
    | some p =>
      obtain ⟨h2, m⟩ := p
      simp only [h1] at hc
      rcases h3 : convertItems h2 rest with ⟨h4, _ | ms'⟩
      · simp [h3] at hc
      · simp only [h3, Prod.mk.injEq, Option.some.injEq] at hc
        rw [← hc.2, List.length_cons, List.length_cons, ih h3]

theorem Backend.page_length_le (b : Backend) (coll : GoString) (filters : GoMap)
    (sort : GoString) (skip limit : Int) (hlimit : 0 < limit) :
    ((b.page coll filters sort skip limit).1.length : Int) ≤ limit := by
  have hne : limit ≠ 0 := by omega
  have hnat : ((limit.natAbs : Nat) : Int) = limit := by omega
  unfold Backend.page limitDocs
  split
  · simp only [List.length_nil]; omega
  · simp only [if_neg hne]
    cases b.fetchFault with
    | none =>
      simp only [List.length_take]
      omega
    | some p =>
      obtain ⟨n, e⟩ := p
      simp only [List.length_take]
      omega

/-- C10: for every `limit > 0` (and every page, so every `page >= 1`), every backend
content and every other argument, when `GetAllItems` returns a `PagedResults` with a nil
error, `PageSize` is the number of elements of `Items` and that number is at most
`limit`. -/
theorem GetAllItems_pageSize_le_limit (lib : Library) (b : Backend) (w : World)
    (dataname orderBy sortBy : GoString) (limit page : Int) (filters : MapRef)
    (res : PagedResults) (hlimit : 0 < limit)
    (hok : (GetAllItems lib b w dataname orderBy sortBy limit page filters).ret
      = some (res, none)) :
    res.PageSize = (res.Items.length : Int) ∧ (res.Items.length : Int) ≤ limit := by
  unfold GetAllItems at hok
  rcases hg : GetConnection b w with ⟨w1, _ | err⟩
  swap
  · simp [hg] at hok
  simp only [hg] at hok
  cases hc : Copy w1 with
  | none => simp [hc] at hok
  | some sess =>
    simp only [hc] at hok
    rcases hcount : b.count dataname (w1.heap.read filters) with ⟨total, _ | err⟩
    swap
    · simp [hcount] at hok
    simp only [hcount] at hok
    cases hp : lib.NewPaginator total limit page with
    | none => simp [hp] at hok
    | some pagingInfor =>
      simp only [hp] at hok
      by_cases hs : sortBy = []
      · simp [hs] at hok
      · simp only [if_neg hs] at hok
        have hlen := b.page_length_le dataname (w1.heap.read filters)
          (sortString lib orderBy sortBy) (skipCount limit page) limit hlimit
        have hal := allocItems_length w1.heap
          (b.page dataname (w1.heap.read filters) (sortString lib orderBy sortBy)
            (skipCount limit page) limit).1
        simp only [World.send] at hok
        rcases hcv : convertItems
            (allocItems w1.heap (b.page dataname (w1.heap.read filters)
              (sortString lib orderBy sortBy) (skipCount limit page) limit).1).1
            (allocItems w1.heap (b.page dataname (w1.heap.read filters)
              (sortString lib orderBy sortBy) (skipCount limit page) limit).1).2
          with ⟨h4, _ | ms⟩
        · simp [hcv] at hok
        · simp only [hcv, Option.some.injEq, Prod.mk.injEq, and_true] at hok
          have h5 := convertItems_length hcv
          subst hok
          refine ⟨rfl, ?_⟩
          show ((ms.length : Nat) : Int) ≤ limit
          rw [h5, hal]
          exact hlen

/-- Witness for C10: three stored documents, `limit = 2`, `page = 1`: two items come
back. -/
theorem GetAllItems_pageSize_le_limit_witness :
    (0 : Int) < 2 ∧
    ((2 : Int) = (([some 0, some 1] : List MapRef).length : Int) ∧
      ((([some 0, some 1] : List MapRef).length : Int) ≤ 2)) :=
  ⟨by decide,
   GetAllItems_pageSize_le_limit Library.sample
    (Backend.holding [⟨[(idKey, .objectId (List.replicate 12 1))]⟩,
      ⟨[(idKey, .objectId (List.replicate 12 2))]⟩,
      ⟨[(idKey, .objectId (List.replicate 12 3))]⟩])
    (World.connected ⟨1⟩ []) (ascii "msgs") (ascii "desc") (ascii "createdAt") 2 1 none
    { Total := 3, CurrentPage := 1, TotalPage := 2, PageSize := 2, NextPage := 2,
      PreviousPage := 0, HasNextPage := true, HasPreviousPage := false,
      Items := [some 0, some 1] }
    (by decide) (by decide)⟩

/-! ## Paged listing: C11 -/

/-- The requests of `GetAllItems` once it has a session, the count succeeds and the
paginator returns: the count, then the page fetch with its sort key, skip and limit. -/
theorem GetAllItems_ops (lib : Library) (b : Backend) (w w1 : World)
    (dataname orderBy sortBy : GoString) (limit page : Int) (filters : MapRef)
    (total : Int) (p : Paginator)
    (hconn : GetConnection b w = (w1, none))
    (hcount : b.count dataname (w1.heap.read filters) = (total, none))
    (hpag : lib.NewPaginator total limit page = some p) (hsort : sortBy ≠ []) :
    (GetAllItems lib b w dataname orderBy sortBy limit page filters).world.ops =
      w1.ops ++ [Op.count dataname (w1.heap.read filters),
        Op.findPage dataname (w1.heap.read filters) (sortString lib orderBy sortBy)
          (skipCount limit page) limit] := by
  have hnone : (GetConnection b w).2 = none := by rw [hconn]
  obtain ⟨sess, hsess⟩ := GetConnection_ok_connection hnone
  rw [hconn] at hsess
  simp only at hsess
  unfold GetAllItems
  simp only [hconn, Copy, hsess, hcount, hpag, if_neg hsort, World.send]
  split <;> simp

theorem wrapInt_of_range {x : Int} (h1 : -(2 ^ 63) ≤ x) (h2 : x < 2 ^ 63) : wrapInt x = x := by
  unfold wrapInt
  omega

theorem wrapInt_sub_wrapInt (x y : Int) : wrapInt (wrapInt x - y) = wrapInt (x - y) := by
  unfold wrapInt
  omega

theorem skipCount_eq_wrap (limit page : Int) :
    skipCount limit page = wrapInt ((page - 1) * limit) := by
  unfold skipCount
  rw [wrapInt_sub_wrapInt]
  congr 1
  ring

theorem wrapInt32_of_range {x : Int} (h1 : -(2 ^ 31) ≤ x) (h2 : x < 2 ^ 31) :
    wrapInt32 x = x := by
  unfold wrapInt32
  omega

theorem serverSkip_skipCount_of_range {limit page : Int}
    (h1 : -(2 ^ 31) ≤ (page - 1) * limit) (h2 : (page - 1) * limit < 2 ^ 31) :
    serverSkip (skipCount limit page) = (page - 1) * limit := by
  have h3 : -(2 ^ 63) ≤ (page - 1) * limit := le_trans (by norm_num) h1
  have h4 : (page - 1) * limit < 2 ^ 63 := lt_of_lt_of_le h2 (by norm_num)
  rw [serverSkip, skipCount_eq_wrap, wrapInt_of_range h3 h4, wrapInt32_of_range h1 h2]

/-- C11 (counterexample): the skip is not `(page - 1) * limit` for all integers, it can
be negative for `page >= 1` and `limit >= 0`, and `GetAllItems` has no check of its own
against `page <= 0`.  With `page = 2^62`, `limit = 4` the skip computed in Go `int`
arithmetic is `-4`.  With `page = 2^30 + 1`, `limit = 2` the argument of `Query.Skip` is
`2^31` and the server is asked to skip `-2^31`.  With `page = 0`, `limit = 10` the
argument is `-10`, and on a connected handler, whatever paginator is in use, once it
returns the page fetch is sent with that skip. -/
theorem GetAllItems_skip_not_guarded :
    ((1 : Int) ≤ 2 ^ 62 ∧ (0 : Int) ≤ 4 ∧ skipCount 4 (2 ^ 62) = -4 ∧
      skipCount 4 (2 ^ 62) ≠ (2 ^ 62 - 1) * 4) ∧
    ((1 : Int) ≤ 2 ^ 30 + 1 ∧ (0 : Int) ≤ 2 ∧ skipCount 2 (2 ^ 30 + 1) = 2 ^ 31 ∧
      serverSkip (skipCount 2 (2 ^ 30 + 1)) = -(2 ^ 31) ∧
      serverSkip (skipCount 2 (2 ^ 30 + 1)) ≠ (2 ^ 30 + 1 - 1) * 2) ∧
    (skipCount 10 0 = -10 ∧ serverSkip (skipCount 10 0) = -10 ∧
      ∀ (lib : Library) (p : Paginator), lib.NewPaginator 0 10 0 = some p →
        (GetAllItems lib (Backend.holding []) (World.connected ⟨1⟩ []) (ascii "msgs")
          (ascii "DESC") (ascii "createdAt") 10 0 none).world.ops
        = [Op.count (ascii "msgs") ⟨[]⟩,
           Op.findPage (ascii "msgs") ⟨[]⟩
            (sortString lib (ascii "DESC") (ascii "createdAt")) (-10) 10]) := by
  have h1 : skipCount 4 (2 ^ 62) = -4 := by
    rw [skipCount_eq_wrap]
    unfold wrapInt
    norm_num
  have h2 : skipCount 2 (2 ^ 30 + 1) = 2 ^ 31 := by
    rw [skipCount_eq_wrap]
    unfold wrapInt
    norm_num
  have h3 : skipCount 10 0 = -10 := by
    rw [skipCount_eq_wrap]
    unfold wrapInt
    norm_num
  have h4 : serverSkip (2 ^ 31) = -(2 ^ 31) := by
    unfold serverSkip wrapInt32
    norm_num
  have h5 : serverSkip (-10) = -10 := by
    unfold serverSkip wrapInt32
    norm_num
  refine ⟨⟨by norm_num, by norm_num, h1, ?_⟩, ⟨by norm_num, by norm_num, h2, ?_, ?_⟩,
    h3, ?_, ?_⟩
  · rw [h1]; norm_num
  · rw [h2, h4]
  · rw [h2, h4]; norm_num
  · rw [h3, h5]
  · intro lib p hp
    have hops := GetAllItems_ops lib (Backend.holding []) (World.connected ⟨1⟩ [])
      (World.connected ⟨1⟩ []) (ascii "msgs") (ascii "DESC") (ascii "createdAt") 10 0 none
      0 p rfl rfl hp (by decide)
    rw [hops, h3]
    rfl

/-- C11 (amended): once `GetAllItems` has a session, the count succeeds, the paginator
returns and the sort field is not empty, the page fetch it sends hands to `Query.Skip`
the value `(page * limit) - limit` of Go `int` arithmetic, for every `page` and `limit`:
`GetAllItems` has no check on `page`.  That value is `(page - 1) * limit` wrapped to 64 bits; it equals
`(page - 1) * limit` whenever this product fits in an `int`, and is then `>= 0` whenever
`page >= 1` and `limit >= 0`.  The driver stores it as `int32`: the number of documents
the server is asked to skip equals `(page - 1) * limit` whenever this product fits in
an `int32`, and is then `>= 0` whenever `page >= 1` and `limit >= 0`. -/
theorem GetAllItems_skip (lib : Library) (b : Backend) (w w1 : World)
    (dataname orderBy sortBy : GoString) (limit page : Int) (filters : MapRef)
    (total : Int) (p : Paginator)
    (hconn : GetConnection b w = (w1, none))
    (hcount : b.count dataname (w1.heap.read filters) = (total, none))
    (hpag : lib.NewPaginator total limit page = some p) (hsort : sortBy ≠ []) :
    (GetAllItems lib b w dataname orderBy sortBy limit page filters).world.ops =
      w1.ops ++ [Op.count dataname (w1.heap.read filters),
        Op.findPage dataname (w1.heap.read filters) (sortString lib orderBy sortBy)
          (skipCount limit page) limit] ∧
    skipCount limit page = wrapInt ((page - 1) * limit) ∧
    (-(2 ^ 63) ≤ (page - 1) * limit → (page - 1) * limit < 2 ^ 63 →
      skipCount limit page = (page - 1) * limit) ∧
    (1 ≤ page → 0 ≤ limit → (page - 1) * limit < 2 ^ 63 →
      skipCount limit page = (page - 1) * limit ∧ 0 ≤ skipCount limit page) ∧
    (-(2 ^ 31) ≤ (page - 1) * limit → (page - 1) * limit < 2 ^ 31 →
      serverSkip (skipCount limit page) = (page - 1) * limit) ∧
    (1 ≤ page → 0 ≤ limit → (page - 1) * limit < 2 ^ 31 →
      serverSkip (skipCount limit page) = (page - 1) * limit ∧
      0 ≤ serverSkip (skipCount limit page)) := by
  refine ⟨GetAllItems_ops lib b w w1 dataname orderBy sortBy limit page filters total p
    hconn hcount hpag hsort, skipCount_eq_wrap limit page, ?_, ?_, ?_, ?_⟩
  · intro h1 h2
    rw [skipCount_eq_wrap, wrapInt_of_range h1 h2]
  · intro hp hl h2
    have h0 : 0 ≤ (page - 1) * limit := mul_nonneg (by omega) hl
    have h1 : -(2 ^ 63) ≤ (page - 1) * limit := le_trans (by norm_num) h0
    rw [skipCount_eq_wrap, wrapInt_of_range h1 h2]
    exact ⟨rfl, h0⟩
  · intro h1 h2
    exact serverSkip_skipCount_of_range h1 h2
  · intro hp hl h2
    have h0 : 0 ≤ (page - 1) * limit := mul_nonneg (by omega) hl
    have h1 : -(2 ^ 31) ≤ (page - 1) * limit := le_trans (by norm_num) h0
    rw [serverSkip_skipCount_of_range h1 h2]
    exact ⟨rfl, h0⟩

/-- Witness for C11: `limit = 10`, `page = 3` on a connected handler: the skip sent is
`20`. -/
theorem GetAllItems_skip_witness :
    (GetAllItems Library.sample (Backend.holding []) (World.connected ⟨1⟩ []) (ascii "msgs")
        (ascii "DESC") (ascii "createdAt") 10 3 none).world.ops =
      (World.connected ⟨1⟩ []).ops ++ [Op.count (ascii "msgs")
          ((World.connected ⟨1⟩ []).heap.read none),
        Op.findPage (ascii "msgs") ((World.connected ⟨1⟩ []).heap.read none)
          (sortString Library.sample (ascii "DESC") (ascii "createdAt")) (skipCount 10 3) 10] ∧
    skipCount 10 3 = wrapInt ((3 - 1) * 10) ∧
    (-(2 ^ 63) ≤ ((3 : Int) - 1) * 10 → ((3 : Int) - 1) * 10 < 2 ^ 63 →
      skipCount 10 3 = (3 - 1) * 10) ∧
    ((1 : Int) ≤ 3 → (0 : Int) ≤ 10 → ((3 : Int) - 1) * 10 < 2 ^ 63 →
      skipCount 10 3 = (3 - 1) * 10 ∧ 0 ≤ skipCount 10 3) ∧
    (-(2 ^ 31) ≤ ((3 : Int) - 1) * 10 → ((3 : Int) - 1) * 10 < 2 ^ 31 →
      serverSkip (skipCount 10 3) = (3 - 1) * 10) ∧
    ((1 : Int) ≤ 3 → (0 : Int) ≤ 10 → ((3 : Int) - 1) * 10 < 2 ^ 31 →
      serverSkip (skipCount 10 3) = (3 - 1) * 10 ∧ 0 ≤ serverSkip (skipCount 10 3)) :=
  GetAllItems_skip Library.sample (Backend.holding []) (World.connected ⟨1⟩ [])
    (World.connected ⟨1⟩ []) (ascii "msgs") (ascii "DESC") (ascii "createdAt") 10 3 none 0
    { TotalPage := 0, NextPage := 0, PreviousPage := 2, HasNextPage := false,
      HasPreviousPage := true }
    rfl rfl (by decide) (by decide)

/-! ## Paged listing: C12 -/

theorem minus_ne_plus (f : GoString) : ascii "-" ++ f ≠ ascii "+" ++ f := by
  have e1 : ascii "-" = [45] := by decide
  have e2 : ascii "+" = [43] := by decide
  rw [e1, e2]
  intro h
  simp at h

set_option maxRecDepth 100000 in
theorem ToUpper_samples (lib : Library)
    (hlib : ∀ s : GoString, (∀ c ∈ s, isASCII c = true) → lib.ToUpper s = s.map asciiUpper) :
    lib.ToUpper (ascii "DESC") = ascii "DESC" ∧ lib.ToUpper (ascii "desc") = ascii "DESC" ∧
    lib.ToUpper (ascii "Desc") = ascii "DESC" ∧ lib.ToUpper [] ≠ ascii "DESC" ∧
    lib.ToUpper (ascii "ASC") ≠ ascii "DESC" := by
  refine ⟨?_, ?_, ?_, ?_, ?_⟩
  · rw [hlib _ (by decide)]; decide
  · rw [hlib _ (by decide)]; decide
  · rw [hlib _ (by decide)]; decide
  · rw [hlib _ (by decide)]; decide
  · rw [hlib _ (by decide)]; decide

/-- C12: for every sort field `f` and direction `d`, with `strings.ToUpper` upper-casing
ASCII strings letter by letter: the sort key is `"-" ++ f` exactly when `d` equals
`"DESC"` ignoring letter case (the upper-case forms are equal; for an ASCII `d`: the
letters of `d` put in upper case spell `DESC`), and `"+" ++ f` for every other `d`;
`"DESC"`, `"desc"`, `"Desc"` give `"-" ++ f`, `""` and `"ASC"` give `"+" ++ f`; the key
after its sign is the single field `f`; and this key is the one in the page fetch
`GetAllItems` sends. -/
theorem sortString_direction (lib : Library) (f d : GoString)
    (hlib : ∀ s : GoString, (∀ c ∈ s, isASCII c = true) → lib.ToUpper s = s.map asciiUpper) :
    (sortString lib d f = ascii "-" ++ f ↔ equalsIgnoringCase lib.ToUpper d (ascii "DESC")) ∧
    (¬ equalsIgnoringCase lib.ToUpper d (ascii "DESC") → sortString lib d f = ascii "+" ++ f) ∧
    ((∀ c ∈ d, isASCII c = true) →
      (equalsIgnoringCase lib.ToUpper d (ascii "DESC") ↔ d.map asciiUpper = ascii "DESC")) ∧
    (sortString lib (ascii "DESC") f = ascii "-" ++ f ∧
      sortString lib (ascii "desc") f = ascii "-" ++ f ∧
      sortString lib (ascii "Desc") f = ascii "-" ++ f ∧
      sortString lib [] f = ascii "+" ++ f ∧
      sortString lib (ascii "ASC") f = ascii "+" ++ f) ∧
    (sortString lib d f).drop 1 = f ∧
    (∀ (b : Backend) (w w1 : World) (dataname : GoString) (limit page : Int)
        (filters : MapRef) (total : Int) (p : Paginator),
      GetConnection b w = (w1, none) →
      b.count dataname (w1.heap.read filters) = (total, none) →
      lib.NewPaginator total limit page = some p → f ≠ [] →
      (GetAllItems lib b w dataname d f limit page filters).world.ops =
        w1.ops ++ [Op.count dataname (w1.heap.read filters),
          Op.findPage dataname (w1.heap.read filters) (sortString lib d f)
            (skipCount limit page) limit]) := by
  obtain ⟨hDESC, hdesc, hDesc, hempty, hASC⟩ := ToUpper_samples lib hlib
  refine ⟨?_, ?_, ?_, ⟨?_, ?_, ?_, ?_, ?_⟩, ?_, ?_⟩
  · unfold sortString equalsIgnoringCase
    rw [hDESC]
    by_cases h : lib.ToUpper d = ascii "DESC"
    · simp [h]
    · simp only [if_neg h, h, iff_false]
      exact fun hh => minus_ne_plus f hh.symm
  · unfold sortString equalsIgnoringCase
    rw [hDESC]
    intro h
    rw [if_neg h]
  · intro hd
    unfold equalsIgnoringCase
    rw [hDESC, hlib d hd]
  · simp [sortString, hDESC]
  · simp [sortString, hdesc]
  · simp [sortString, hDesc]
  · simp [sortString, hempty]
  · simp [sortString, hASC]
  · unfold sortString
    split <;> rfl
  · intro b w w1 dataname limit page filters total p hconn hcount hpag hsort
    exact GetAllItems_ops lib b w w1 dataname d f limit page filters total p
      hconn hcount hpag hsort

/-- Witness for C12: the library that upper-cases ASCII letters, field `createdAt`,
direction `desc`. -/
theorem sortString_direction_witness :
    sortString Library.sample (ascii "desc") (ascii "createdAt") = ascii "-createdAt" ∧
    sortString Library.sample (ascii "ASC") (ascii "createdAt") = ascii "+createdAt" :=
  ⟨by
    have h := (sortString_direction Library.sample (ascii "createdAt") (ascii "desc")
      (fun _ _ => rfl)).2.2.2.1.2.1
    rw [h]; decide,
   by decide⟩

/-! ## The connection: C13 -/

theorem GetConnection_ops (b : Backend) (w : World) :
    (GetConnection b w).1.ops = w.ops ∨ (GetConnection b w).1.ops = w.ops ++ [Op.dial] := by
  unfold GetConnection createMongoSession
  cases w.handler.connection with
  | some s => exact Or.inl rfl
  | none => cases b.dial <;> exact Or.inr rfl

/-- C13: with the handler's connection an optional handle.  `CloseConnection` always
leaves no handle (`IsConnecting` false); a second call, or a call on a handler without a
handle, changes nothing and releases nothing, while a held handle is released once.
`GetConnection` on a handler that holds a handle returns no error, sends no dial and
keeps the world as it is; after a first call that returned no error a second call does
the same, so the two calls together dial at most once.  `IsConnecting` is true exactly
when a handle is held; it is a function of the state that returns only the boolean. -/
theorem connection_lifecycle (b : Backend) (w : World) :
    (IsConnecting (CloseConnection w) = false ∧
      (CloseConnection w).handler.connection = none) ∧
    CloseConnection (CloseConnection w) = CloseConnection w ∧
    (w.handler.connection = none → CloseConnection w = w) ∧
    (∀ s, w.handler.connection = some s →
      (CloseConnection w).ops = w.ops ++ [Op.close s] ∧ (CloseConnection w).heap = w.heap) ∧
    (∀ s, w.handler.connection = some s →
      GetConnection b w = (w, none) ∧
      GetConnection b (GetConnection b w).1 = (w, none)) ∧
    ((GetConnection b w).2 = none →
      GetConnection b (GetConnection b w).1 = ((GetConnection b w).1, none) ∧
      (GetConnection b (GetConnection b w).1).1.ops.count Op.dial ≤ w.ops.count Op.dial + 1) ∧
    (IsConnecting w = true ↔ ∃ s, w.handler.connection = some s) := by
  have hclose : (CloseConnection w).handler.connection = none := by
    unfold CloseConnection
    rcases h : w.handler.connection with _ | s
    · exact h
    · rfl
  have hnone : ∀ v : World, v.handler.connection = none → CloseConnection v = v := by
    intro v hv
    unfold CloseConnection
    rw [hv]
  refine ⟨⟨?_, hclose⟩, hnone _ hclose, hnone w, ?_, ?_, ?_, ?_⟩
  · simp [IsConnecting, hclose]
  · intro s hs
    unfold CloseConnection
    rw [hs]
    exact ⟨rfl, rfl⟩
  · intro s hs
    rw [GetConnection_connected hs]
    exact ⟨rfl, GetConnection_connected hs⟩
  · intro hok
    obtain ⟨s, hs⟩ := GetConnection_ok_connection hok
    rw [GetConnection_connected hs]
    refine ⟨rfl, ?_⟩
    rcases GetConnection_ops b w with h | h
    · rw [h]; omega
    · rw [h, List.count_append]
      simp
  · unfold IsConnecting
    rcases h : w.handler.connection with _ | s
    · simp [h]
    · simp [h]

/-! ## Document conversion: C14 -/

/-- What `createMapFromBsonM` does on a document whose `"_id"` is a native identifier:
it returns the same table, with `"_id"` rewritten to the identifier's text and every
other field as it was. -/
theorem createMapFromBsonM_of_objectId (h : Heap) (doc : Nat) (id : ObjectId)
    (hdoc : (h.read (some doc)).get idKey = some (.objectId id)) :
    createMapFromBsonM h (some doc)
      = some (h.assign doc idKey (.str (MarshalText id)), some doc) ∧
    ∀ k, ((h.assign doc idKey (.str (MarshalText id))).read (some doc)).get k =
      if k = idKey then some (.str (MarshalText id)) else (h.read (some doc)).get k := by
  have hv : doc < h.cells.length := Heap.valid_of_get hdoc
  refine ⟨by simp [createMapFromBsonM, isBsonMContenNonEmptyKey, GoMap.index, hdoc], ?_⟩
  intro k
  rw [Heap.read_assign_same _ _ _ _ hv, GoMap.get_set]

/-- What `createMapFromBsonM` does on a document whose `"_id"` is absent or nil: it
returns the document as it is. -/
theorem createMapFromBsonM_of_absent (h : Heap) (doc : MapRef)
    (hdoc : (h.read doc).get idKey = none ∨ (h.read doc).get idKey = some .nil) :
    createMapFromBsonM h doc = some (h, doc) := by
  rcases hdoc with hd | hd <;> simp [createMapFromBsonM, isBsonMContenNonEmptyKey, hd]

/-- C14 (the code at the failing input): on the document `{_id: "abc"}`, whose `"_id"`
is a string, `createMapFromBsonM` returns nothing: the type assertion
`doc["_id"].(bson.ObjectId)` panics.  The same happens for an `"_id"` of type `int`. -/
theorem createMapFromBsonM_panics_on_string_id :
    createMapFromBsonM ⟨[⟨[(idKey, .str (ascii "abc"))]⟩]⟩ (some 0) = none ∧
    createMapFromBsonM ⟨[⟨[(idKey, .int 5), (ascii "seen", .bool true)]⟩]⟩ (some 0) = none := by
  decide

/-! ## Connection failure: C15 -/

theorem GetConnection_dial_error {b : Backend} {w : World} {e : GoError}
    (hno : w.handler.connection = none) (hdial : b.dial = .error e) :
    GetConnection b w =
      ({ w with handler := { w.handler with connection := none }, ops := w.ops ++ [Op.dial] },
        some e) := by
  unfold GetConnection createMongoSession
  rw [hno, hdial]

/-- The nine operations that check the result of `GetConnection`: when the handler
holds no session and the dial fails with `e`, each returns `e`, sends nothing but the
dial and leaves the handler without a session. -/
theorem connection_failure_returns_error (lib : Library) (b : Backend) (w : World)
    (e : GoError) (dataName : GoString) (hno : w.handler.connection = none)
    (hdial : b.dial = .error e) :
    (∀ orderBy sortBy limit page filters,
      (GetAllItems lib b w dataName orderBy sortBy limit page filters).ret
          = some (PagedResults.zero, some e) ∧
        IsConnecting (GetAllItems lib b w dataName orderBy sortBy limit page filters).world
          = false ∧
        (GetAllItems lib b w dataName orderBy sortBy limit page filters).world.ops
          = w.ops ++ [Op.dial]) ∧
    (∀ filters, (GetTotal b w dataName filters).ret = some (0, some e) ∧
        IsConnecting (GetTotal b w dataName filters).world = false ∧
        (GetTotal b w dataName filters).world.ops = w.ops ++ [Op.dial]) ∧
    (∀ filters, (GetAllItemsNoLimit b w dataName filters).ret = some ([], some e) ∧
        IsConnecting (GetAllItemsNoLimit b w dataName filters).world = false ∧
        (GetAllItemsNoLimit b w dataName filters).world.ops = w.ops ++ [Op.dial]) ∧
    (∀ item, (∃ r, (AddNewItem b w dataName item).ret = some (r, some e)) ∧
        IsConnecting (AddNewItem b w dataName item).world = false ∧
        (AddNewItem b w dataName item).world.ops = w.ops ++ [Op.dial]) ∧
    (∀ id, (FindItemByID b w dataName id).ret = some (none, some e) ∧
        IsConnecting (FindItemByID b w dataName id).world = false ∧
        (FindItemByID b w dataName id).world.ops = w.ops ++ [Op.dial]) ∧
    (∀ selector, (FindBy b w dataName selector).ret = some (none, some e) ∧
        IsConnecting (FindBy b w dataName selector).world = false ∧
        (FindBy b w dataName selector).world.ops = w.ops ++ [Op.dial]) ∧
    (∀ selector update, (UpdateBy b w dataName selector update).ret = some (0, some e) ∧
        IsConnecting (UpdateBy b w dataName selector update).world = false ∧
        (UpdateBy b w dataName selector update).world.ops = w.ops ++ [Op.dial]) ∧
    (∀ id update, (UpdateByID b w dataName id update).ret = some (some e) ∧
        IsConnecting (UpdateByID b w dataName id update).world = false ∧
        (UpdateByID b w dataName id update).world.ops = w.ops ++ [Op.dial]) ∧
    (∀ selector, (RemoveItemBy b w dataName selector).ret = some (some e) ∧
        IsConnecting (RemoveItemBy b w dataName selector).world = false ∧
        (RemoveItemBy b w dataName selector).world.ops = w.ops ++ [Op.dial]) := by
  have hg := GetConnection_dial_error (b := b) (w := w) (e := e) hno hdial
  refine ⟨?_, ?_, ?_, ?_, ?_, ?_, ?_, ?_, ?_⟩
  · intro orderBy sortBy limit page filters
    simp [GetAllItems, hg, IsConnecting]
  · intro filters
    simp [GetTotal, hg, IsConnecting]
  · intro filters
    simp [GetAllItemsNoLimit, hg, IsConnecting]
  · intro item
    have hg2 := GetConnection_with_heap b w (cloneStringMap w.heap item).1
    rw [hg] at hg2
    simp [AddNewItem, hg2, IsConnecting]
  · intro id
    simp [FindItemByID, hg, IsConnecting]
  · intro selector
    simp [FindBy, hg, IsConnecting]
  · intro selector update
    simp [UpdateBy, hg, IsConnecting]
  · intro id update
    simp [UpdateByID, hg, IsConnecting]
  · intro selector
    simp [RemoveItemBy, hg, IsConnecting]

/-- C15 (the code at the failing input): on a handler without a session and a backend
that refuses the dial, `RemoveItemByID` with a well-formed identifier (native, or its 24
hexadecimal characters) does not return the connection error: it goes on to
`m.connection.Copy()` on the nil session and panics. -/
theorem RemoveItemByID_uses_missing_connection :
    (GetConnection (Backend.unreachable (.driver 1)) (World.disconnected [])).2
      = some (.driver 1) ∧
    (RemoveItemByID (Backend.unreachable (.driver 1)) (World.disconnected []) (ascii "msgs")
      (.objectId (List.replicate 12 7))).ret = none ∧
    (RemoveItemByID (Backend.unreachable (.driver 1)) (World.disconnected []) (ascii "msgs")
      (.str (ascii "5d88e15b60f486e428412dc9"))).ret = none := by
  decide

/-! ## Paged listing: C16 -/

/-- An error `GetAllItems` returns is the error of `GetConnection` or the error of the
count; the error of the page fetch is never returned. -/
theorem GetAllItems_error_source (lib : Library) (b : Backend) (w : World)
    (dataname orderBy sortBy : GoString) (limit page : Int) (filters : MapRef)
    (res : PagedResults) (e : GoError)
    (hret : (GetAllItems lib b w dataname orderBy sortBy limit page filters).ret
      = some (res, some e)) :
    (GetConnection b w).2 = some e ∨
    (b.count dataname ((GetConnection b w).1.heap.read filters)).2 = some e := by
  unfold GetAllItems at hret
  rcases hg : GetConnection b w with ⟨w1, _ | err⟩
  swap
  · simp only [hg, Option.some.injEq, Prod.mk.injEq] at hret
    exact Or.inl (by rw [hret.2])
  simp only [hg] at hret ⊢
  cases hc : Copy w1 with
  | none => simp [hc] at hret
  | some sess =>
    simp only [hc] at hret
    rcases hcount : b.count dataname (w1.heap.read filters) with ⟨total, _ | err⟩
    swap
    · simp only [hcount, Option.some.injEq, Prod.mk.injEq] at hret
      exact Or.inr (by rw [hret.2])
    simp only [hcount] at hret
    cases hp : lib.NewPaginator total limit page with
    | none => simp [hp] at hret
    | some pagingInfor =>
      simp only [hp] at hret
      by_cases hs : sortBy = []
      · simp [hs] at hret
      · simp only [if_neg hs] at hret
        split at hret <;> simp at hret

/-- C16 (the code at the failing input): the collection holds one document, the count
succeeds and the page fetch fails with a driver error; `GetAllItems` returns a
`PagedResults` (total 1, no items) together with a nil error. -/
theorem GetAllItems_swallows_fetch_error :
    ((Backend.failingFetch [⟨[(idKey, .objectId (List.replicate 12 1))]⟩] (.driver 7)).page
      (ascii "msgs") ⟨[]⟩ (ascii "-createdAt") 0 10).2 = some (.driver 7) ∧
    (GetAllItems Library.sample
      (Backend.failingFetch [⟨[(idKey, .objectId (List.replicate 12 1))]⟩] (.driver 7))
      (World.connected ⟨1⟩ []) (ascii "msgs") (ascii "DESC") (ascii "createdAt") 10 1 none).ret
      = some ({ Total := 1, CurrentPage := 1, TotalPage := 1, PageSize := 0, NextPage := 0,
                PreviousPage := 0, HasNextPage := false, HasPreviousPage := false,
                Items := [] }, none) ∧
    (GetAllItems Library.sample
      (Backend.failingFetch [⟨[(idKey, .objectId (List.replicate 12 1))]⟩] (.driver 7))
      (World.connected ⟨1⟩ []) (ascii "msgs") (ascii "DESC") (ascii "createdAt") 10 1 none).world.ops
      = [Op.count (ascii "msgs") ⟨[]⟩,
         Op.findPage (ascii "msgs") ⟨[]⟩ (ascii "-createdAt") 0 10] := by
  decide

end MongoHandler
